import Mathlib

/-!
Verification development for `src/scrapers/thesisbr_ckan_httpx.py` of the
cpps-unesp/thesisbr repository.

The Python source is shallowly embedded below.  Strings are Lean `String`s
(sequences of Unicode scalar values, matching Python `str` for the inputs of
interest), bytes are `Nat`s below 256, machine integers are `Int`/`Nat`.
External effects (the HTTP transport, `httpx.URL` parsing, the filesystem,
`time.sleep`) are made explicit: transports and per-attempt download outcomes
are function parameters, the filesystem is an association list from path
strings to byte lists, and sleeps/log lines are counted in result records.
-/

/-! ### Python primitives used by the source -/

/-- Characters treated as whitespace by Python's `str.strip`, `re`'s `\s`
(for `str` patterns) and by `int()` parsing: the Unicode whitespace set used
by CPython (`Py_UNICODE_ISSPACE`). -/
def pyIsSpace (c : Char) : Bool :=
  [0x09, 0x0A, 0x0B, 0x0C, 0x0D, 0x1C, 0x1D, 0x1E, 0x1F, 0x20, 0x85, 0xA0,
   0x1680, 0x2000, 0x2001, 0x2002, 0x2003, 0x2004, 0x2005, 0x2006, 0x2007,
   0x2008, 0x2009, 0x200A, 0x2028, 0x2029, 0x202F, 0x205F, 0x3000].contains c.toNat

/-- Python `str.strip()` on a character list: drop leading and trailing
whitespace. -/
def pyStripWs (cs : List Char) : List Char :=
  ((cs.dropWhile pyIsSpace).reverse.dropWhile pyIsSpace).reverse

/-- Python `str.strip()`. -/
def pyStrip (s : String) : String := String.mk (pyStripWs s.data)

/-- Python `str.lower()`, modelled for the ASCII range (the program only
compares ASCII format names and URL suffixes). -/
def asciiLower (s : String) : String := String.mk (s.data.map Char.toLower)

/-- Python `str.endswith(sfx)`. -/
def strEndsWith (s sfx : String) : Bool := List.isSuffixOf sfx.data s.data

/-- Value of an ASCII hexadecimal digit. -/
def hexVal (c : Char) : Option Nat :=
  if 0x30 ≤ c.toNat ∧ c.toNat ≤ 0x39 then some (c.toNat - 0x30)
  else if 0x61 ≤ c.toNat ∧ c.toNat ≤ 0x66 then some (c.toNat - 0x61 + 10)
  else if 0x41 ≤ c.toNat ∧ c.toNat ≤ 0x46 then some (c.toNat - 0x41 + 10)
  else none

/-- Start code points of the Unicode `Nd` (decimal digit) ranges, each a run
of ten characters with digit values 0-9 (Unicode 15.0, as compiled into
recent CPython; the `1D7CE..1D7FF` mathematical digits appear as five
consecutive runs). -/
def ndDigitStarts : List Nat :=
  [0x30, 0x660, 0x6F0, 0x7C0, 0x966, 0x9E6, 0xA66, 0xAE6, 0xB66, 0xBE6,
   0xC66, 0xCE6, 0xD66, 0xDE6, 0xE50, 0xED0, 0xF20, 0x1040, 0x1090, 0x17E0,
   0x1810, 0x1946, 0x19D0, 0x1A80, 0x1A90, 0x1B50, 0x1BB0, 0x1C40, 0x1C50,
   0xA620, 0xA8D0, 0xA900, 0xA9D0, 0xA9F0, 0xAA50, 0xABF0, 0xFF10,
   0x104A0, 0x10D30, 0x11066, 0x110F0, 0x11136, 0x111D0, 0x112F0, 0x11450,
   0x114D0, 0x11650, 0x116C0, 0x11730, 0x118E0, 0x11950, 0x11C50, 0x11D50,
   0x11DA0, 0x11F50, 0x16A60, 0x16AC0, 0x16B50,
   0x1D7CE, 0x1D7D8, 0x1D7E2, 0x1D7EC, 0x1D7F6,
   0x1E140, 0x1E2F0, 0x1E4F0, 0x1E950, 0x1FBF0]

/-- Value of a Unicode decimal digit (CPython's `Py_UNICODE_TODECIMAL`):
the offset of the code point inside its `Nd` run, if any. -/
def unicodeDecimal (c : Char) : Option Nat :=
  (ndDigitStarts.find? (fun s => decide (s ≤ c.toNat) && decide (c.toNat < s + 10))).map
    (fun s => c.toNat - s)

/-- Models CPython's `_PyUnicode_TransformDecimalAndSpaceToASCII` on one
character, the first stage of `int(str, base)`: characters below 127 pass
through; other whitespace becomes a plain space; other Unicode decimal
digits become the corresponding ASCII digit; everything else becomes `?`
(which the ASCII parser then rejects). -/
def pyTranslitChar (c : Char) : Char :=
  if c.toNat < 127 then c
  else if pyIsSpace c then ' '
  else
    match unicodeDecimal c with
    | some d => Char.ofNat (0x30 + d)
    | none => '?'

/-- ASCII whitespace stripped by CPython's C-level integer parser
(`Py_ISSPACE`): HT LF VT FF CR and space only — not 1C-1F. -/
def pyAsciiSpace (c : Char) : Bool :=
  [0x09, 0x0A, 0x0B, 0x0C, 0x0D, 0x20].contains c.toNat

/-- Strip `Py_ISSPACE` characters from both ends. -/
def pyStripAsciiWs (cs : List Char) : List Char :=
  ((cs.dropWhile pyAsciiSpace).reverse.dropWhile pyAsciiSpace).reverse

/-- Models `PyLong_FromString` with base 16 on an already-transliterated
two-character slice: strip ASCII whitespace, allow an optional sign, then
require hexadecimal digits.  (The `0x` prefix cannot help here: with two
characters it leaves no digits, exactly as in CPython.)  Returns `none`
where Python raises `ValueError`. -/
def pyIntHex2Ascii (t1 t2 : Char) : Option Int :=
  match pyStripAsciiWs [t1, t2] with
  | [] => none
  | [d] =>
    (match hexVal d with
     | some v => some ((v : Nat) : Int)
     | none => none)
  | [a, b] =>
    if a = '+' then
      (match hexVal b with
       | some v => some ((v : Nat) : Int)
       | none => none)
    else if a = '-' then
      (match hexVal b with
       | some v => some (-((v : Nat) : Int))
       | none => none)
    else
      (match hexVal a, hexVal b with
       | some va, some vb => some ((16 * va + vb : Nat) : Int)
       | _, _ => none)
  | _ => none

/-- Python `int(s, 16)` on the two-character slices `s[i+1:i+3]` that
`pct_decode` feeds it: CPython first transliterates non-ASCII whitespace
and decimal digits to ASCII (so e.g. `int("١2", 16) = 0x12`), then parses
the ASCII token. -/
def pyIntHex2 (c1 c2 : Char) : Option Int :=
  pyIntHex2Ascii (pyTranslitChar c1) (pyTranslitChar c2)

/-- UTF-8 encoding of one scalar value (Python `ch.encode("utf-8")`;
the `"ignore"` error handler only matters for surrogates, which Lean `Char`
cannot hold). -/
def utf8EncodeChar (c : Char) : List Nat :=
  let n := c.toNat
  if n < 0x80 then [n]
  else if n < 0x800 then [0xC0 + n / 0x40, 0x80 + n % 0x40]
  else if n < 0x10000 then
    [0xE0 + n / 0x1000, 0x80 + (n / 0x40) % 0x40, 0x80 + n % 0x40]
  else
    [0xF0 + n / 0x40000, 0x80 + (n / 0x1000) % 0x40,
     0x80 + (n / 0x40) % 0x40, 0x80 + n % 0x40]

/-- Is a byte a UTF-8 continuation byte? -/
def utf8Cont (b : Nat) : Bool := decide (0x80 ≤ b ∧ b ≤ 0xBF)

/-- Valid second byte of a three-byte UTF-8 sequence with lead `b`. -/
def utf8Cont3 (b b2 : Nat) : Bool :=
  if b = 0xE0 then decide (0xA0 ≤ b2 ∧ b2 ≤ 0xBF)
  else if b = 0xED then decide (0x80 ≤ b2 ∧ b2 ≤ 0x9F)
  else utf8Cont b2

/-- Valid second byte of a four-byte UTF-8 sequence with lead `b`. -/
def utf8Cont4 (b b2 : Nat) : Bool :=
  if b = 0xF0 then decide (0x90 ≤ b2 ∧ b2 ≤ 0xBF)
  else if b = 0xF4 then decide (0x80 ≤ b2 ∧ b2 ≤ 0x8F)
  else utf8Cont b2

/-- The U+FFFD replacement character. -/
def replChar : Char := Char.ofNat 0xFFFD

/-- UTF-8 decoding with Python's `errors="replace"` handler: each maximal
subpart of an ill-formed subsequence is replaced by one U+FFFD, as CPython
does (`bytes.decode("utf-8", "replace")`). -/
def utf8DecodeReplaceAux : List Nat → List Char
  | [] => []
  | b :: rest =>
    if b < 0x80 then Char.ofNat b :: utf8DecodeReplaceAux rest
    else if b < 0xC2 then replChar :: utf8DecodeReplaceAux rest
    else if b < 0xE0 then
      match rest with
      | [] => [replChar]
      | b2 :: rest2 =>
        if utf8Cont b2 then
          Char.ofNat ((b - 0xC0) * 0x40 + (b2 - 0x80)) :: utf8DecodeReplaceAux rest2
        else replChar :: utf8DecodeReplaceAux (b2 :: rest2)
    else if b < 0xF0 then
      match rest with
      | [] => [replChar]
      | b2 :: rest2 =>
        if utf8Cont3 b b2 then
          match rest2 with
          | [] => [replChar]
          | b3 :: rest3 =>
            if utf8Cont b3 then
              Char.ofNat ((b - 0xE0) * 0x1000 + (b2 - 0x80) * 0x40 + (b3 - 0x80))
                :: utf8DecodeReplaceAux rest3
            else replChar :: utf8DecodeReplaceAux (b3 :: rest3)
        else replChar :: utf8DecodeReplaceAux (b2 :: rest2)
    else if b < 0xF5 then
      match rest with
      | [] => [replChar]
      | b2 :: rest2 =>
        if utf8Cont4 b b2 then
          match rest2 with
          | [] => [replChar]
          | b3 :: rest3 =>
            if utf8Cont b3 then
              match rest3 with
              | [] => [replChar]
              | b4 :: rest4 =>
                if utf8Cont b4 then
                  Char.ofNat ((b - 0xF0) * 0x40000 + (b2 - 0x80) * 0x1000 +
                      (b3 - 0x80) * 0x40 + (b4 - 0x80)) :: utf8DecodeReplaceAux rest4
                else replChar :: utf8DecodeReplaceAux (b4 :: rest4)
            else replChar :: utf8DecodeReplaceAux (b3 :: rest3)
        else replChar :: utf8DecodeReplaceAux (b2 :: rest2)
    else replChar :: utf8DecodeReplaceAux rest

/-! ### `pct_decode` (source lines 85-110) -/

/-- The byte-producing scan of `pct_decode`: walk the string left to right;
at a `%` with at least two following characters, try `int(s[i+1:i+3], 16)`
and `bytearray.append` (which raises on values outside `0..255`); on success
consume three characters, otherwise emit the `%`'s UTF-8 bytes and resume at
the next character.  All other characters contribute their UTF-8 bytes. -/
def pctScan : List Char → List Nat
  | [] => []
  | '%' :: c1 :: c2 :: rest =>
    (match pyIntHex2 c1 c2 with
     | some v =>
       if 0 ≤ v ∧ v < 256 then v.toNat :: pctScan rest
       else utf8EncodeChar '%' ++ pctScan (c1 :: c2 :: rest)
     | none => utf8EncodeChar '%' ++ pctScan (c1 :: c2 :: rest))
  | c :: rest => utf8EncodeChar c ++ pctScan rest

/-- Embeds `pct_decode` from the source: identity when the string holds no `%`,
otherwise scan to bytes and UTF-8-decode with replacement (never raises). -/
def pct_decode (s : String) : String :=
  if s.data.contains '%' = false then s
  else String.mk (utf8DecodeReplaceAux (pctScan s.data))

/-! ### `sanitize_filename` (source lines 113-119) -/

/-- The characters of the regex class `[\\/:*?"<>|\r\n\t]`. -/
def badFileChar (c : Char) : Bool :=
  c == '\\' || c == '/' || c == ':' || c == '*' || c == '?' || c == '"' ||
  c == '<' || c == '>' || c == '|' || c == '\r' || c == '\n' || c == '\t'

/-- Models `re.sub(pattern+, repl, s)` for a one-character-class pattern: each
maximal run of characters satisfying `p` becomes the single character `r`. -/
def subRunsAux (p : Char → Bool) (r : Char) : Bool → List Char → List Char
  | _, [] => []
  | inRun, c :: cs =>
    if p c then
      (if inRun then subRunsAux p r true cs else r :: subRunsAux p r true cs)
    else c :: subRunsAux p r false cs

/-- Replace maximal runs of `p`-characters by the single character `r`. -/
def subRuns (p : Char → Bool) (r : Char) (l : List Char) : List Char :=
  subRunsAux p r false l

/-- Embeds `sanitize_filename` from the source:
`re.sub(r"[\\/:*?\"<>|\r\n\t]+", "_", name.strip())`, then
`re.sub(r"\s+", " ", name).strip()`, then `replace(" ", "_")`,
then `or "arquivo"`. -/
def sanitize_filename (name : String) : String :=
  let s1 := subRuns badFileChar '_' (pyStripWs name.data)
  let s2 := subRuns pyIsSpace ' ' s1
  let s3 := pyStripWs s2
  let s4 := s3.map (fun c => if c = ' ' then '_' else c)
  if s4.isEmpty then "arquivo" else String.mk s4

/-! ### Resource records and filters (source lines 160-171) -/

/-- A CKAN resource record; `none` models an absent key (`dict.get` default)
as well as JSON `null`. -/
structure Resource where
  id : Option String
  name : Option String
  description : Option String
  format : Option String
  url : Option String
  download_url : Option String
deriving DecidableEq, Repr

/-- Python `a or b` on optional strings: `a` unless it is `None` or empty. -/
def pyOr (a b : Option String) : Option String :=
  match a with
  | some s => if s ≠ "" then some s else b
  | none => b

/-- Python `a or d` landing on a string default. -/
def pyOrStr (a : Option String) (d : String) : String :=
  match a with
  | some s => if s ≠ "" then s else d
  | none => d

/-- Python `a or d` for a string `a` and string default `d`. -/
def pyOrS (a d : String) : String := if a ≠ "" then a else d

/-- Embeds `res_url` from the source: `res.get("url") or res.get("download_url") or ""`. -/
def res_url (r : Resource) : String := pyOrStr (pyOr r.url r.download_url) ""

/-- Embeds `res_pretty_name` from the source:
`res.get("name") or res.get("description") or res.get("id") or "arquivo"`. -/
def res_pretty_name (r : Resource) : String :=
  pyOrStr (pyOr (pyOr r.name r.description) r.id) "arquivo"

/-- Embeds `is_xlsx_resource` from the source: stripped lowercased `format` equals
`"xlsx"`, or the stripped lowercased effective URL ends with `".xlsx"`. -/
def is_xlsx_resource (r : Resource) : Bool :=
  let fmt := asciiLower (pyStrip (pyOrStr r.format ""))
  let url := asciiLower (pyStrip (pyOrStr (pyOr r.url r.download_url) ""))
  fmt == "xlsx" || strEndsWith url ".xlsx"

/-- The classifier as the claim states it (`is_target_format` of the spec):
`format` case-insensitively equals the wanted format, or the effective URL
(url, else download_url) case-insensitively ends with `.{wanted}` — with no
whitespace stripping anywhere. -/
def is_target_format_spec (r : Resource) (wanted : String) : Bool :=
  asciiLower (pyOrStr r.format "") == asciiLower wanted ||
  strEndsWith (asciiLower (res_url r)) ("." ++ asciiLower wanted)

/-- The group-listing filter (source lines 344-350): a resource is kept
unless a non-empty filter is set, the stripped lowercased format differs
from it, and the lowercased (unstripped) URL does not end with `.{filter}`.
`fmtFilter` arrives already stripped and lowercased (source line 316). -/
def groupKeep (fmtFilter : String) (r : Resource) : Bool :=
  let fmt := pyStrip (pyOrStr r.format "")
  let url := res_url r
  !(fmtFilter != "" && asciiLower fmt != fmtFilter &&
    !(strEndsWith (asciiLower url) ("." ++ fmtFilter)))

/-! ### Content-Disposition filename token (source lines 177-204)

The source searches the header with the regex
`filename\*?=(?:UTF-8'')?"?([^";]+)"?` under `re.IGNORECASE` and returns
group 1 of the leftmost match.  The functions below model `re.search` for
this concrete pattern, including the backtracking order of the two optional
pieces (the `UTF-8''` tag and the opening quote). -/

/-- Case-insensitive literal prefix match (ASCII case folding, as
`re.IGNORECASE` behaves on the ASCII letters of this pattern); returns the
remaining input on success. -/
def ciPrefixMatch : List Char → List Char → Option (List Char)
  | [], cs => some cs
  | _ :: _, [] => none
  | p :: ps, c :: cs => if p.toLower = c.toLower then ciPrefixMatch ps cs else none

/-- The capture group `([^";]+)`: a maximal nonempty run of characters other
than `"` and `;`. -/
def cdCapture (cs : List Char) : Option (List Char) :=
  let tok := cs.takeWhile (fun c => c != '"' && c != ';')
  if tok.isEmpty then none else some tok

/-- The optional opening quote `"?` followed by the capture group.  When the
quote is consumed the capture cannot start with `"` anyway, so the regex
backtracking collapses to this deterministic form. -/
def cdAfterQuote (cs : List Char) : Option (List Char) :=
  match cs with
  | '"' :: rest => cdCapture rest
  | _ => cdCapture cs

/-- The optional `(?:UTF-8'')?` tag followed by the quoted capture; if the
match fails after consuming the tag, the regex backtracks to not consuming
it. -/
def cdAfterEq (cs : List Char) : Option (List Char) :=
  match ciPrefixMatch "utf-8''".data cs with
  | some rest =>
    (match cdAfterQuote rest with
     | some tok => some tok
     | none => cdAfterQuote cs)
  | none => cdAfterQuote cs

/-- Try to match the whole pattern at the start of `cs`: the literal
`filename`, an optional `*`, the literal `=`, then `cdAfterEq`. -/
def cdMatchAt (cs : List Char) : Option (List Char) :=
  match ciPrefixMatch "filename".data cs with
  | none => none
  | some r1 =>
    match r1 with
    | '*' :: '=' :: r2 => cdAfterEq r2
    | '=' :: r2 => cdAfterEq r2
    | _ => none

/-- Models `re.search`: try the pattern at each position, left to right. -/
def cdSearchAux : List Char → Option (List Char)
  | [] => none
  | c :: cs =>
    match cdMatchAt (c :: cs) with
    | some tok => some tok
    | none => cdSearchAux cs

/-- Group 1 of the leftmost `_cd_fname_re` match, if any. -/
def cdSearch (s : String) : Option String := (cdSearchAux s.data).map String.mk

/-- Split a character list at `/` separators. -/
def splitSlashAux : List Char → List Char → List (List Char)
  | acc, [] => [acc.reverse]
  | acc, '/' :: rest => acc.reverse :: splitSlashAux [] rest
  | acc, c :: rest => splitSlashAux (c :: acc) rest

/-- Models `pathlib.PurePosixPath(p).name`: the last path component, with empty and
`.` components dropped. -/
def pathName (p : String) : String :=
  String.mk ((((splitSlashAux [] p.data).filter
    (fun seg => seg != [] && seg != ['.'])).getLast?).getD [])

/-- Step 1 of `guess_filename`: the `Content-Disposition` token,
percent-decoded and sanitized (source lines 181-184). -/
def cdStep (cd : String) : Option String :=
  (cdSearch cd).map (fun tok => sanitize_filename (pct_decode tok))

/-- Step 2 of `guess_filename`: the last path segment of the chosen URL,
percent-decoded and sanitized; `none` when `httpx.URL` raised, the path was
empty, or its final component was empty (source lines 187-195). -/
def urlStep (urlPath : String → Option String) (chosen : String) : Option String :=
  match urlPath chosen with
  | some path =>
    if path ≠ "" then
      (let fn := pathName path
       if fn ≠ "" then some (sanitize_filename (pct_decode fn)) else none)
    else none
  | none => none

/-- Steps 3-4 of `guess_filename`: the sanitized name hint with `.xlsx`
appended unless already present, else the fixed default (source
lines 198-204). -/
def hintStep (nameHint : Option String) : String :=
  match nameHint with
  | some h =>
    if h ≠ "" then
      (let fn := sanitize_filename h
       if strEndsWith (asciiLower fn) ".xlsx" then fn else fn ++ ".xlsx")
    else "arquivo.xlsx"
  | none => "arquivo.xlsx"

/-- Models the URL choice `str(resp.url) if resp.url else fallback_url`. -/
def chosenUrl (respUrl : Option String) (fallbackUrl : String) : String :=
  match respUrl with
  | some u => u
  | none => fallbackUrl

/-- Embeds `guess_filename` from the source (lines 179-204), written as the same
chain of early returns.  `urlPath` stands for `httpx.URL(u).path` (external
library): `none` models a raised exception, `some p` the parsed path.
`respUrl` is `resp.url` (`none` when falsy), `cd` the `content-disposition`
header value (`""` when absent). -/
def guess_filename (urlPath : String → Option String) (cd : String)
    (respUrl : Option String) (fallbackUrl : String) (nameHint : Option String) : String :=
  match cdStep cd with
  | some fn => fn
  | none =>
    match urlStep urlPath (chosenUrl respUrl fallbackUrl) with
    | some fn => fn
    | none => hintStep nameHint

/-! ### Spec-worded percent decoders (for claim C4) -/

/-- Modelled from the claim's words: only a `%HH` triplet whose two
characters are hexadecimal digits is converted; everything else passes
through unchanged. -/
def pctScanSpec : List Char → List Nat
  | [] => []
  | '%' :: c1 :: c2 :: rest =>
    (match hexVal c1, hexVal c2 with
     | some a, some b => (16 * a + b) :: pctScanSpec rest
     | _, _ => utf8EncodeChar '%' ++ pctScanSpec (c1 :: c2 :: rest))
  | c :: rest => utf8EncodeChar c ++ pctScanSpec rest

/-- The percent decoder exactly as claim C4 states it. -/
def pctDecode_spec (s : String) : String :=
  if s.data.contains '%' = false then s
  else String.mk (utf8DecodeReplaceAux (pctScanSpec s.data))

/-- The decodable two-character suffixes of a `%`-triplet after CPython's
transliteration, spelled out: two hex digits; `+` or an ASCII whitespace
character followed by a hex digit; a hex digit followed by ASCII
whitespace; or `-0`.  This enumerates exactly the transliterated tokens on
which `int(hh, 16)` succeeds with a value accepted by `bytearray.append`. -/
def decodeAsciiTriplet (t1 t2 : Char) : Option Nat :=
  match hexVal t1, hexVal t2 with
  | some a, some b => some (16 * a + b)
  | _, _ =>
    if t1 = '+' then hexVal t2
    else if t1 = '-' then
      (match hexVal t2 with
       | some v => if v = 0 then some 0 else none
       | none => none)
    else if pyAsciiSpace t1 then hexVal t2
    else if pyAsciiSpace t2 then hexVal t1
    else none

/-- The amended claim's decode condition on the raw characters: apply
CPython's transliteration, then the enumerated ASCII table. -/
def decodeTripletA (c1 c2 : Char) : Option Nat :=
  decodeAsciiTriplet (pyTranslitChar c1) (pyTranslitChar c2)

/-- The scan of the amended claim C4: triplets decodable per
`decodeTripletA` become that byte; all else passes through unchanged. -/
def pctScanAmended : List Char → List Nat
  | [] => []
  | '%' :: c1 :: c2 :: rest =>
    (match decodeTripletA c1 c2 with
     | some v => v :: pctScanAmended rest
     | none => utf8EncodeChar '%' ++ pctScanAmended (c1 :: c2 :: rest))
  | c :: rest => utf8EncodeChar c ++ pctScanAmended rest

/-- The percent decoder as amended claim C4 states it. -/
def pctDecode_amended (s : String) : String :=
  if s.data.contains '%' = false then s
  else String.mk (utf8DecodeReplaceAux (pctScanAmended s.data))

/-! ### Path suffixes and the filesystem model (source lines 210-237) -/

/-- Models `pathlib.PurePath(...).suffix` of a final path component: the substring
from the last dot, provided that dot is neither the first nor the last
character of the name. -/
def pySuffixL (cs : List Char) : List Char :=
  let r := cs.reverse
  let post := r.takeWhile (fun c => c != '.')
  if post.length < r.length && !post.isEmpty && post.length + 1 < cs.length then
    '.' :: post.reverse
  else []

/-- Models `pathlib.PurePath.with_suffix`: drop the current suffix of the name and
append `sfx` (the source always passes a dot-initial, slash-free `sfx`, so
the validity checks of `with_suffix` cannot fire). -/
def pyWithSuffixL (cs sfx : List Char) : List Char :=
  cs.take (cs.length - (pySuffixL cs).length) ++ sfx

/-- A filesystem: an association list from path strings to byte contents. -/
abbrev Fs : Type := List (String × List Nat)

/-- Contents at a path, if the file exists. -/
def fsGet (fs : Fs) (p : String) : Option (List Nat) :=
  (List.find? (fun e => e.1 == p) fs).map (fun e => e.2)

/-- Create or overwrite the file at `p`. -/
def fsSet (fs : Fs) (p : String) (v : List Nat) : Fs :=
  (p, v) :: List.filter (fun e => e.1 != p) fs

/-- Remove the file at `p`. -/
def fsErase (fs : Fs) (p : String) : Fs := List.filter (fun e => e.1 != p) fs

/-- Models `os.replace(src, dst)`: atomically rename `src` over `dst`. -/
def fsRename (fs : Fs) (src dst : String) : Fs :=
  match fsGet fs src with
  | some v => fsSet (fsErase fs src) dst v
  | none => fs

/-- An HTTP response for the streaming download: final status, the
`content-disposition` header value (`""` when absent), the final URL after
redirects (`none` when falsy) and the streamed body chunks. -/
structure HttpResp where
  status : Nat
  contentDisposition : String
  finalUrl : Option String
  chunks : List (List Nat)

/-- Result of one download attempt. -/
inductive DlResult where
  | httpError (status : Nat)
  | ok (path : String)
deriving DecidableEq, Repr

/-- Embeds `download_stream` (source lines 210-237): on a non-2xx status
`raise_for_status` fires before any write; otherwise the body is streamed to
`out_path.with_suffix(out_path.suffix + ".part")` and atomically renamed
over the final path.  Progress printing and timing are observational and not
modelled; `dest_dir.mkdir` is invisible in a file-map filesystem. -/
def download_stream (urlPath : String → Option String) (url : String)
    (destDir : String) (nameHint : Option String) (resp : HttpResp) (fs : Fs) :
    DlResult × Fs :=
  if 200 ≤ resp.status ∧ resp.status < 300 then
    let filename := guess_filename urlPath resp.contentDisposition resp.finalUrl url nameHint
    let outPath := destDir ++ "/" ++ filename
    let tmpPath := destDir ++ "/" ++
      String.mk (pyWithSuffixL filename.data (pySuffixL filename.data ++ ".part".data))
    let fs1 := fsSet fs tmpPath resp.chunks.flatten
    (DlResult.ok outPath, fsRename fs1 tmpPath outPath)
  else (DlResult.httpError resp.status, fs)

/-! ### `download_with_retry` (source lines 240-253) -/

/-- Counters for the observable side effects of the retry loop: downloader
invocations, failure log lines, and `time.sleep(sleep_between)` calls. -/
structure RetryStats where
  calls : Nat
  logs : Nat
  sleeps : Nat
deriving DecidableEq, Repr

/-- Outcome of `download_with_retry`: a returned value, a re-raised last
error, or the `assert last_err is not None` failing. -/
inductive RetryOutcome (α ε : Type) where
  | ok (v : α)
  | raised (e : ε)
  | assertFailed
deriving DecidableEq, Repr

/-- Python `range(lo, hi)` over integers. -/
def pyRangeAux (lo : Int) : Nat → List Int
  | 0 => []
  | n + 1 => lo :: pyRangeAux (lo + 1) n

/-- Python `range(lo, hi)`. -/
def pyRange (lo hi : Int) : List Int := pyRangeAux lo (hi - lo).toNat

/-- The attempt loop of `download_with_retry`: `oracle` is the behaviour of
`download_stream` on each attempt (the network may answer differently every
time).  Each failure is logged; a sleep happens after a failure iff the
attempt number is below `retry`. -/
def retryGo (oracle : Int → Except ε α) (retry : Int) :
    List Int → Option ε → RetryStats → RetryOutcome α ε × RetryStats
  | [], some e, st => (RetryOutcome.raised e, st)
  | [], none, st => (RetryOutcome.assertFailed, st)
  | attempt :: rest, _lastErr, st =>
    match oracle attempt with
    | Except.ok v => (RetryOutcome.ok v, { st with calls := st.calls + 1 })
    | Except.error e =>
      retryGo oracle retry rest (some e)
        { calls := st.calls + 1, logs := st.logs + 1,
          sleeps := st.sleeps + (if attempt < retry then 1 else 0) }

/-- Embeds `download_with_retry` (source lines 240-253): run the attempts
`range(1, retry + 1)`, remember the last error, and at loop exit assert it
exists and re-raise it.  The `lastErr` parameter starts as `None`. -/
def download_with_retry (oracle : Int → Except ε α) (retry : Int) :
    RetryOutcome α ε × RetryStats :=
  retryGo oracle retry (pyRange 1 (retry + 1)) none ⟨0, 0, 0⟩

/-! ### `ckan_call` (source lines 138-146) -/

/-- A JSON value (`r.json()`); numbers are modelled as integers, which covers
every value this program inspects. -/
inductive JValue where
  | null
  | jbool (b : Bool)
  | jnum (n : Int)
  | jstr (s : String)
  | jarr (elems : List JValue)
  | jobj (fields : List (String × JValue))

/-- Python truthiness of a JSON value. -/
def jTruthy : JValue → Bool
  | JValue.null => false
  | JValue.jbool b => b
  | JValue.jnum n => n != 0
  | JValue.jstr s => s != ""
  | JValue.jarr es => !es.isEmpty
  | JValue.jobj fs => !fs.isEmpty

/-- Models `dict.get(k)` on a parsed JSON object (JSON keeps the last duplicate
key, hence the reversed search). -/
def jGet (fields : List (String × JValue)) (k : String) : Option JValue :=
  (List.find? (fun p => p.1 == k) fields.reverse).map (fun p => p.2)

/-- Truthiness of `dict.get(k)` (absent keys give `None`, which is falsy). -/
def optJTruthy : Option JValue → Bool
  | none => false
  | some v => jTruthy v

/-- What `ckan_call` can do: `raise_for_status` (non-2xx), a JSON parse
failure, an `AttributeError` (`.get` on a non-dict body), a `KeyError`
(`data["result"]` missing), the `RuntimeError` carrying the whole decoded
envelope, or a normal return of the `result` field. -/
inductive CkanResult where
  | httpError (status : Nat)
  | jsonError
  | attrError
  | keyError (k : String)
  | protocolError (action : String) (data : JValue)
  | ok (result : JValue)

/-- A transport response: HTTP status plus the decoded JSON body (`none`
models a body `r.json()` cannot parse). -/
structure HttpJsonResp where
  status : Nat
  body : Option JValue

/-- Embeds `ckan_call` (source lines 138-146): build
`{base}/api/3/action/{action}`, GET it, `raise_for_status`, parse JSON,
raise `RuntimeError(f"CKAN {action} falhou: {data}")` unless
`data.get("success")` is truthy, and return `data["result"]`. -/
def ckan_call (transport : String → List (String × String) → HttpJsonResp)
    (base action : String) (params : List (String × String)) : CkanResult :=
  let url := base ++ "/api/3/action/" ++ action
  let r := transport url params
  if 200 ≤ r.status ∧ r.status < 300 then
    match r.body with
    | none => CkanResult.jsonError
    | some (JValue.jobj fields) =>
      if optJTruthy (jGet fields "success") then
        match jGet fields "result" with
        | some v => CkanResult.ok v
        | none => CkanResult.keyError "result"
      else CkanResult.protocolError action (JValue.jobj fields)
    | some _ => CkanResult.attrError
  else CkanResult.httpError r.status

/-! ### Orchestrators (source lines 278-377) -/

/-- What happens to one matched resource inside the download loop of
`action_download_dataset_xlsx`. -/
inductive DlEvent (ε : Type) where
  | skippedNoUrl (rid : Option String)
  | done (name url : String)
  | failedDl (name url : String) (e : ε)
deriving DecidableEq, Repr

/-- The `for i, r in enumerate(xlsx, 1)` loop body (source lines 296-308):
no-URL resources are skipped with a notice; otherwise the retrying download
runs and any exception is caught and logged.  `oracle i` is the outcome of
`download_with_retry` for iteration `i`. -/
def processResources (oracle : Nat → Except ε Unit) :
    Nat → List Resource → List (DlEvent ε)
  | _, [] => []
  | i, r :: rest =>
    (let url := res_url r
     let name := pyOrS (res_pretty_name r) ("arquivo_" ++ toString i ++ ".xlsx")
     if url == "" then DlEvent.skippedNoUrl r.id
     else
       match oracle i with
       | Except.ok _ => DlEvent.done name url
       | Except.error e => DlEvent.failedDl name url e)
    :: processResources oracle (i + 1) rest

/-- Embeds `action_download_dataset_xlsx` (source lines 278-310) after the initial
`package_show` succeeded with `resources`: filter to XLSX, loop, and return
exit code 0 no matter what happened inside the loop. -/
def action_download_dataset_xlsx (resources : List Resource)
    (oracle : Nat → Except ε Unit) : Int × List (DlEvent ε) :=
  let xlsx := resources.filter is_xlsx_resource
  if xlsx.isEmpty then (0, [])
  else (0, processResources oracle 1 xlsx)

/-- A dataset summary from `group_show` (`packages` entries). -/
structure Package where
  id : Option String
  name : Option String
  title : Option String
deriving DecidableEq, Repr

/-- One CSV row of the group listing (source lines 353-361). -/
structure CsvRow where
  dataset_title : Option String
  dataset_name : Option String
  dataset_id : Option String
  resource_name : String
  resource_format : String
  resource_url : String
  resource_id : Option String
deriving DecidableEq, Repr

/-- Build the CSV row for resource `r` of package `pkg`. -/
def rowOf (pkg : Package) (r : Resource) : CsvRow :=
  { dataset_title := pyOr (pyOr pkg.title pkg.name) pkg.id
  , dataset_name := pyOr pkg.name pkg.id
  , dataset_id := pkg.id
  , resource_name := res_pretty_name r
  , resource_format := pyStrip (pyOrStr r.format "")
  , resource_url := res_url r
  , resource_id := r.id }

/-- The per-dataset loop of `action_list_group` (source lines 327-361):
fetch each dataset's resources (`pkgShow i pkg` is the outcome of
`ckan_package_show` on iteration `i`; an exception is caught, logged and the
dataset skipped), filter them, and accumulate CSV rows. -/
def listGroupRows (pkgShow : Nat → Package → Except ε (List Resource))
    (fmtFilter : String) : Nat → List Package → List CsvRow
  | _, [] => []
  | i, pkg :: rest =>
    (match pkgShow i pkg with
     | Except.error _ => []
     | Except.ok resources =>
       (resources.filter (groupKeep fmtFilter)).map (rowOf pkg))
    ++ listGroupRows pkgShow fmtFilter (i + 1) rest

/-- The final messages the group listing can print about CSV export. -/
inductive GroupMsg where
  | exported (path : String)
  | nothingToExport
  | noDatasets
deriving DecidableEq, Repr

/-- Everything observable about one `action_list_group` run. -/
structure GroupOutcome where
  exit : Int
  rows : List CsvRow
  csv : Option (String × List String × List CsvRow)
  msg : Option GroupMsg
deriving DecidableEq, Repr

/-- The fixed CSV header (source lines 365-368). -/
def csvFieldnames : List String :=
  ["dataset_title", "dataset_name", "dataset_id",
   "resource_name", "resource_format", "resource_url", "resource_id"]

/-- Embeds `action_list_group` (source lines 313-377) after `group_show` succeeded
with `packages`: empty groups report and exit; otherwise rows are
accumulated and the CSV is written iff a path was requested and at least one
row matched (`if csv_out and rows`), with `"Nada para exportar"` printed when
a path was requested but no row matched. -/
def action_list_group (packages : List Package)
    (pkgShow : Nat → Package → Except ε (List Resource))
    (rawFmt rawCsv : String) : GroupOutcome :=
  let fmtFilter := asciiLower (pyStrip rawFmt)
  if packages.isEmpty then ⟨0, [], none, some GroupMsg.noDatasets⟩
  else
    let rows := listGroupRows pkgShow fmtFilter 1 packages
    if rawCsv ≠ "" ∧ rows ≠ [] then
      ⟨0, rows, some (rawCsv, csvFieldnames, rows), some (GroupMsg.exported rawCsv)⟩
    else if rawCsv ≠ "" ∧ rows = [] then
      ⟨0, rows, none, some GroupMsg.nothingToExport⟩
    else ⟨0, rows, none, none⟩

example : pct_decode "a%20b" = "a b" := by decide
example : pct_decode "100%" = "100%" := by decide
example : pct_decode (String.mk ['%', Char.ofNat 0x661, '2']) =
    String.mk [Char.ofNat 0x12] := by decide
example : pct_decode (String.mk ['%', Char.ofNat 0x1C, '1']) =
    String.mk ['%', Char.ofNat 0x1C, '1'] := by decide
example : sanitize_filename "a/b:c" = "a_b_c" := by decide
example : sanitize_filename "   " = "arquivo" := by decide
example : cdSearch "attachment; filename=\"b%20c.xlsx\"" = some "b%20c.xlsx" := by decide
example : cdSearch "attachment; filename*=UTF-8''x%2dy.xlsx; x=1" = some "x%2dy.xlsx" := by decide
example : cdSearch "nothing here" = none := by decide
example : cdSearch "filename=UTF-8''" = some "UTF-8''" := by decide
example : pathName "/a/b/c.xlsx" = "c.xlsx" := by decide
example : is_xlsx_resource ⟨none, none, none, some "XLSX", none, none⟩ = true := by decide
example : is_xlsx_resource ⟨none, none, none, none, some "http://h/f.XLSX", none⟩ = true := by decide

/-! ## Helper lemmas -/

theorem pyRange_cons {lo hi : Int} (h : lo < hi) :
    pyRange lo hi = lo :: pyRange (lo + 1) hi := by
  unfold pyRange
  have h2 : (hi - lo).toNat = (hi - (lo + 1)).toNat + 1 := by omega
  rw [h2]
  rfl

theorem pyRange_eq_nil {lo hi : Int} (h : hi ≤ lo) : pyRange lo hi = [] := by
  unfold pyRange
  have h2 : (hi - lo).toNat = 0 := by omega
  rw [h2]
  rfl

theorem retryGo_success {α ε : Type} (oracle : Int → Except ε α) (retry : Int)
    (errs : Int → ε) (k : Int) (v : α) :
    ∀ (n : Nat) (a : Int) (le : Option ε) (st : RetryStats),
      (k - a).toNat = n → a ≤ k → k ≤ retry →
      (∀ i, a ≤ i → i < k → oracle i = Except.error (errs i)) →
      oracle k = Except.ok v →
      retryGo oracle retry (pyRange a (retry + 1)) le st =
        (RetryOutcome.ok v, ⟨st.calls + n + 1, st.logs + n, st.sleeps + n⟩) := by
  intro n
  induction n with
  | zero =>
    intro a le st hn hak hkr hfail hok
    have hak' : a = k := by omega
    subst hak'
    rw [pyRange_cons (by omega)]
    simp [retryGo, hok]
  | succ m ih =>
    intro a le st hn hak hkr hfail hok
    have hlt : a < k := by omega
    rw [pyRange_cons (by omega)]
    rw [retryGo, hfail a le_rfl hlt]
    have har : a < retry := by omega
    rw [if_pos har]
    show retryGo oracle retry (pyRange (a + 1) (retry + 1)) (some (errs a))
      ⟨st.calls + 1, st.logs + 1, st.sleeps + 1⟩ = _
    rw [ih (a + 1) (some (errs a))
      ⟨st.calls + 1, st.logs + 1, st.sleeps + 1⟩ (by omega) (by omega) hkr
      (fun i h1 h2 => hfail i (by omega) h2) hok]
    simp [RetryStats.mk.injEq]
    omega

theorem retryGo_allfail {α ε : Type} (oracle : Int → Except ε α) (retry : Int)
    (errs : Int → ε) :
    ∀ (n : Nat) (a : Int) (le : Option ε) (st : RetryStats),
      (retry - a).toNat = n → a ≤ retry →
      (∀ i, a ≤ i → i ≤ retry → oracle i = Except.error (errs i)) →
      retryGo oracle retry (pyRange a (retry + 1)) le st =
        (RetryOutcome.raised (errs retry),
         ⟨st.calls + n + 1, st.logs + n + 1, st.sleeps + n⟩) := by
  intro n
  induction n with
  | zero =>
    intro a le st hn har hfail
    have ha : a = retry := by omega
    subst ha
    rw [pyRange_cons (by omega)]
    rw [retryGo, hfail a le_rfl le_rfl]
    rw [if_neg (by omega)]
    rw [pyRange_eq_nil (by omega)]
    simp [retryGo]
  | succ m ih =>
    intro a le st hn har hfail
    have hlt : a < retry := by omega
    rw [pyRange_cons (by omega)]
    rw [retryGo, hfail a le_rfl (by omega)]
    rw [if_pos hlt]
    show retryGo oracle retry (pyRange (a + 1) (retry + 1)) (some (errs a))
      ⟨st.calls + 1, st.logs + 1, st.sleeps + 1⟩ = _
    rw [ih (a + 1) (some (errs a))
      ⟨st.calls + 1, st.logs + 1, st.sleeps + 1⟩ (by omega) (by omega)
      (fun i h1 h2 => hfail i (by omega) h2)]
    simp [RetryStats.mk.injEq]
    omega

theorem retryGo_no_assert {α ε : Type} (oracle : Int → Except ε α) (retry : Int) :
    ∀ (l : List Int) (le : Option ε) (st : RetryStats),
      (l = [] → le ≠ none) →
      (retryGo oracle retry l le st).1 ≠ RetryOutcome.assertFailed := by
  intro l
  induction l with
  | nil =>
    intro le st h
    match le, h rfl with
    | some e, _ => simp [retryGo]
  | cons a rest ih =>
    intro le st _
    rw [retryGo]
    match horacle : oracle a with
    | Except.ok v => simp
    | Except.error e =>
      exact ih (some e) _ (fun _ => by simp)

/-! ## Claims C1 and C10: the retry wrapper -/

/-- Claim C1.  For every downloader behaviour and `retry ≥ 1`: if the
downloader fails on attempts `1..k-1` and succeeds on attempt `k ≤ retry`,
`download_with_retry` returns that result having called the downloader
exactly `k` times and logged exactly `k - 1` failures; if every attempt
`1..retry` fails, it re-raises the error of the last attempt after exactly
`retry` calls, `retry` failure logs and `retry - 1` sleeps of
`sleep_between` seconds (the single `time.sleep(sleep_between)` call site
runs once after every failed attempt except the last). -/
theorem claim_C1_retry_behaviour {α ε : Type} (oracle : Int → Except ε α)
    (retry : Int) (errs : Int → ε) :
    (∀ (k : Int) (v : α), 1 ≤ k → k ≤ retry →
       (∀ i, 1 ≤ i → i < k → oracle i = Except.error (errs i)) →
       oracle k = Except.ok v →
       download_with_retry oracle retry =
         (RetryOutcome.ok v, ⟨k.toNat, k.toNat - 1, k.toNat - 1⟩)) ∧
    (1 ≤ retry →
       (∀ i, 1 ≤ i → i ≤ retry → oracle i = Except.error (errs i)) →
       download_with_retry oracle retry =
         (RetryOutcome.raised (errs retry),
          ⟨retry.toNat, retry.toNat, retry.toNat - 1⟩)) := by
  constructor
  · intro k v hk1 hkr hfail hok
    unfold download_with_retry
    rw [retryGo_success oracle retry errs k v (k - 1).toNat 1 none ⟨0, 0, 0⟩
      (by omega) hk1 hkr hfail hok]
    simp [RetryStats.mk.injEq]
    omega
  · intro hr hfail
    unfold download_with_retry
    rw [retryGo_allfail oracle retry errs (retry - 1).toNat 1 none ⟨0, 0, 0⟩
      (by omega) hr hfail]
    simp [RetryStats.mk.injEq]
    omega

/-- Witness for C1: a downloader failing on attempt 1 and succeeding on
attempt 2 out of 3, and one failing on both attempts out of 2. -/
theorem claim_C1_witness :
    download_with_retry (fun i => if i < 2 then Except.error (toString i) else Except.ok 42) 3 =
      (RetryOutcome.ok 42, ⟨2, 1, 1⟩) ∧
    download_with_retry (fun i => (Except.error (toString i) : Except String Nat)) 2 =
      (RetryOutcome.raised "2", ⟨2, 2, 1⟩) := by
  constructor
  · exact (claim_C1_retry_behaviour
      (fun i => if i < 2 then Except.error (toString i) else Except.ok 42) 3 toString).1
      2 42 (by omega) (by omega)
      (fun i h1 h2 => by
        have : i = 1 := by omega
        subst this
        rfl)
      rfl
  · exact (claim_C1_retry_behaviour
      (fun i => (Except.error (toString i) : Except String Nat)) 2 toString).2
      (by omega)
      (fun i h1 h2 => rfl)

/-- Claim C10.  With `retry ≥ 1` the attempt loop cannot fall through with
`last_err` still `None`, so the `assert last_err is not None` never fires;
with `retry ≤ 0` the loop body never runs, no download is attempted, and the
function fails with an `AssertionError` (not a transport error). -/
theorem claim_C10_assert_safety {α ε : Type} (oracle : Int → Except ε α) (retry : Int) :
    (1 ≤ retry →
       (download_with_retry oracle retry).1 ≠ RetryOutcome.assertFailed) ∧
    (retry ≤ 0 →
       download_with_retry oracle retry = (RetryOutcome.assertFailed, ⟨0, 0, 0⟩)) := by
  constructor
  · intro hr
    unfold download_with_retry
    apply retryGo_no_assert
    intro hnil
    rw [pyRange_cons (by omega)] at hnil
    exact absurd hnil (by simp)
  · intro hr
    unfold download_with_retry
    rw [pyRange_eq_nil (by omega)]
    rfl

/-- Witness for C10 at concrete inputs: `retry = 2` cannot assert-fail even
with an always-failing downloader, and `retry = 0` assert-fails with zero
downloader calls. -/
theorem claim_C10_witness :
    (download_with_retry (fun _ => (Except.error "boom" : Except String Nat)) 2).1 ≠
      RetryOutcome.assertFailed ∧
    download_with_retry (fun _ => (Except.error "boom" : Except String Nat)) 0 =
      (RetryOutcome.assertFailed, ⟨0, 0, 0⟩) :=
  ⟨(claim_C10_assert_safety (fun _ => (Except.error "boom" : Except String Nat)) 2).1
      (by omega),
   (claim_C10_assert_safety (fun _ => (Except.error "boom" : Except String Nat)) 0).2
      (by omega)⟩

/-! ## Claim C3: the CKAN envelope -/

/-- Counterexample to claim C3 as stated: a 2xx response whose JSON body is
an array has no `success` field, so the claim promises an error that
includes the raw response body; the code instead fails on
`data.get("success")` with an `AttributeError` that carries no body at all. -/
theorem claim_C3_counterexample :
    ckan_call (fun _ _ => ⟨200, some (JValue.jarr [])⟩) "https://h" "package_show" [] =
      CkanResult.attrError ∧
    ∀ d : JValue, CkanResult.attrError ≠ CkanResult.protocolError "package_show" d :=
  ⟨rfl, fun _ h => CkanResult.noConfusion h⟩

/-- Claim C3, amended.  For every base URL, action and parameter map:
a non-2xx transport status raises an HTTP error; with a 2xx status the body
is parsed as JSON, and when it is a JSON object whose `success` field is
falsy or absent the raised error carries the whole decoded envelope; when
`success` is truthy and a `result` field exists, exactly that field is
returned.  (A non-object body raises a bare `AttributeError`, an
unparseable body a JSON decoding error, and a truthy `success` without
`result` a `KeyError` — none of which include the body.) -/
theorem claim_C3_ckan_call
    (transport : String → List (String × String) → HttpJsonResp)
    (base action : String) (params : List (String × String)) :
    let r := transport (base ++ "/api/3/action/" ++ action) params
    (¬(200 ≤ r.status ∧ r.status < 300) →
       ckan_call transport base action params = CkanResult.httpError r.status) ∧
    ((200 ≤ r.status ∧ r.status < 300) →
       (∀ fields, r.body = some (JValue.jobj fields) →
          optJTruthy (jGet fields "success") = false →
          ckan_call transport base action params =
            CkanResult.protocolError action (JValue.jobj fields)) ∧
       (∀ fields v, r.body = some (JValue.jobj fields) →
          optJTruthy (jGet fields "success") = true →
          jGet fields "result" = some v →
          ckan_call transport base action params = CkanResult.ok v) ∧
       (∀ fields, r.body = some (JValue.jobj fields) →
          optJTruthy (jGet fields "success") = true →
          jGet fields "result" = none →
          ckan_call transport base action params = CkanResult.keyError "result") ∧
       (r.body = none →
          ckan_call transport base action params = CkanResult.jsonError) ∧
       (∀ b, r.body = some b → (∀ fields, b ≠ JValue.jobj fields) →
          ckan_call transport base action params = CkanResult.attrError)) := by
  intro r
  constructor
  · intro hbad
    unfold ckan_call
    rw [if_neg hbad]
  · intro hok
    refine ⟨?_, ?_, ?_, ?_, ?_⟩
    · intro fields hbody hfalsy
      unfold ckan_call
      rw [if_pos hok, hbody]
      simp [hfalsy]
    · intro fields v hbody htruthy hres
      unfold ckan_call
      rw [if_pos hok, hbody]
      simp [htruthy, hres]
    · intro fields hbody htruthy hres
      unfold ckan_call
      rw [if_pos hok, hbody]
      simp [htruthy, hres]
    · intro hbody
      unfold ckan_call
      rw [if_pos hok, hbody]
    · intro b hbody hnotobj
      unfold ckan_call
      rw [if_pos hok, hbody]
      match b, hnotobj with
      | JValue.null, _ => rfl
      | JValue.jbool x, _ => rfl
      | JValue.jnum x, _ => rfl
      | JValue.jstr x, _ => rfl
      | JValue.jarr x, _ => rfl
      | JValue.jobj x, h => exact absurd rfl (h x)

/-- Witness for C3: a successful envelope returns exactly its `result`
field, and a 404 yields an HTTP error. -/
theorem claim_C3_witness :
    ckan_call (fun _ _ =>
        ⟨200, some (JValue.jobj [("success", JValue.jbool true), ("result", JValue.jstr "v")])⟩)
      "https://h" "package_show" [("id", "x")] = CkanResult.ok (JValue.jstr "v") ∧
    ckan_call (fun _ _ => ⟨404, none⟩) "https://h" "group_show" [] =
      CkanResult.httpError 404 := by
  constructor
  · exact ((claim_C3_ckan_call (fun _ _ =>
        ⟨200, some (JValue.jobj [("success", JValue.jbool true), ("result", JValue.jstr "v")])⟩)
      "https://h" "package_show" [("id", "x")]).2 (by decide)).2.1
      [("success", JValue.jbool true), ("result", JValue.jstr "v")]
      (JValue.jstr "v") rfl rfl rfl
  · exact (claim_C3_ckan_call (fun _ _ => ⟨404, none⟩) "https://h" "group_show" []).1
      (by decide)

/-! ## Claims C8 and C9: the orchestrator loops -/

theorem res_pretty_name_ne_empty (r : Resource) : res_pretty_name r ≠ "" := by
  unfold res_pretty_name pyOrStr
  match pyOr (pyOr r.name r.description) r.id with
  | none => simp
  | some s =>
    by_cases h : s = "" <;> simp [h]

theorem processResources_length {ε : Type} (oracle : Nat → Except ε Unit) :
    ∀ (l : List Resource) (i : Nat), (processResources oracle i l).length = l.length := by
  intro l
  induction l with
  | nil => intro i; rfl
  | cons r rest ih => intro i; simpa [processResources] using ih (i + 1)

theorem processResources_getElem {ε : Type} (oracle : Nat → Except ε Unit) :
    ∀ (l : List Resource) (i j : Nat),
      (processResources oracle i l)[j]? = (l[j]?).map (fun r =>
        if res_url r == "" then DlEvent.skippedNoUrl r.id
        else
          match oracle (i + j) with
          | Except.ok _ =>
            DlEvent.done (pyOrS (res_pretty_name r)
              ("arquivo_" ++ toString (i + j) ++ ".xlsx")) (res_url r)
          | Except.error e =>
            DlEvent.failedDl (pyOrS (res_pretty_name r)
              ("arquivo_" ++ toString (i + j) ++ ".xlsx")) (res_url r) e) := by
  intro l
  induction l with
  | nil => intro i j; simp [processResources]
  | cons r rest ih =>
    intro i j
    match j with
    | 0 => simp [processResources]
    | j + 1 =>
      rw [processResources, List.getElem?_cons_succ, List.getElem?_cons_succ, ih (i + 1) j]
      have harith : i + 1 + j = i + (j + 1) := by omega
      rw [harith]

theorem listGroupRows_eq_flatMap {ε : Type}
    (pkgShow : Nat → Package → Except ε (List Resource)) (fmtFilter : String) :
    ∀ (pkgs : List Package) (i : Nat),
      listGroupRows pkgShow fmtFilter i pkgs =
        (List.enumFrom i pkgs).flatMap (fun p =>
          match pkgShow p.1 p.2 with
          | Except.error _ => []
          | Except.ok rs => (rs.filter (groupKeep fmtFilter)).map (rowOf p.2)) := by
  intro pkgs
  induction pkgs with
  | nil => intro i; rfl
  | cons pkg rest ih =>
    intro i
    rw [listGroupRows, List.enumFrom_cons, List.flatMap_cons, ih (i + 1)]
    rfl

theorem action_list_group_exit {ε : Type} (packages : List Package)
    (pkgShow : Nat → Package → Except ε (List Resource)) (rawFmt rawCsv : String) :
    (action_list_group packages pkgShow rawFmt rawCsv).exit = 0 := by
  unfold action_list_group
  split
  · rfl
  · dsimp only
    split
    · rfl
    · split <;> rfl

theorem action_list_group_rows {ε : Type} (packages : List Package)
    (pkgShow : Nat → Package → Except ε (List Resource)) (rawFmt rawCsv : String) :
    (action_list_group packages pkgShow rawFmt rawCsv).rows =
      listGroupRows pkgShow (asciiLower (pyStrip rawFmt)) 1 packages := by
  unfold action_list_group
  split
  · next h =>
    rw [List.isEmpty_iff] at h
    rw [h]
    rfl
  · dsimp only
    split
    · rfl
    · split <;> rfl

theorem action_list_group_csv {ε : Type} (packages : List Package)
    (pkgShow : Nat → Package → Except ε (List Resource)) (rawFmt rawCsv : String) :
    (action_list_group packages pkgShow rawFmt rawCsv).csv =
      (if rawCsv ≠ "" ∧ (action_list_group packages pkgShow rawFmt rawCsv).rows ≠ []
       then some (rawCsv, csvFieldnames, (action_list_group packages pkgShow rawFmt rawCsv).rows)
       else none) := by
  rw [action_list_group_rows]
  unfold action_list_group
  split
  · next h =>
    rw [List.isEmpty_iff] at h
    rw [h]
    simp [listGroupRows]
  · dsimp only
    split
    · rfl
    · split
      · rfl
      · rfl

theorem action_list_group_msg_empty_rows {ε : Type} (packages : List Package)
    (pkgShow : Nat → Package → Except ε (List Resource)) (rawFmt rawCsv : String)
    (hcsv : rawCsv ≠ "")
    (hrows : listGroupRows pkgShow (asciiLower (pyStrip rawFmt)) 1 packages = [])
    (hpkg : packages ≠ []) :
    (action_list_group packages pkgShow rawFmt rawCsv).msg =
      some GroupMsg.nothingToExport := by
  unfold action_list_group
  rw [if_neg (by simpa [List.isEmpty_iff] using hpkg)]
  dsimp only
  rw [if_neg (by simp [hrows]), if_pos ⟨hcsv, hrows⟩]

/-- Claim C8.  In the download loop, per-resource outcomes never abort the
loop: the event list has exactly one entry per XLSX-filtered resource,
no-URL resources produce a skip notice (and no download call), other
resources produce a done/failed event according to that iteration's
download outcome, and the exit status is 0 regardless.  In the group
listing, a failed per-dataset resource fetch contributes nothing and
processing continues: the accumulated rows are exactly the concatenation,
over all datasets in order, of the filtered resources of the datasets whose
fetch succeeded, and the exit status is 0. -/
theorem claim_C8_orchestrator_loops {ε ε' : Type} (resources : List Resource)
    (oracle : Nat → Except ε Unit) (packages : List Package)
    (pkgShow : Nat → Package → Except ε' (List Resource)) (rawFmt rawCsv : String) :
    (action_download_dataset_xlsx resources oracle).1 = 0 ∧
    (action_download_dataset_xlsx resources oracle).2.length =
      (resources.filter is_xlsx_resource).length ∧
    (∀ (j : Nat) (r : Resource), (resources.filter is_xlsx_resource)[j]? = some r →
       res_url r = "" →
       (action_download_dataset_xlsx resources oracle).2[j]? =
         some (DlEvent.skippedNoUrl r.id)) ∧
    (∀ (j : Nat) (r : Resource), (resources.filter is_xlsx_resource)[j]? = some r →
       res_url r ≠ "" →
       (action_download_dataset_xlsx resources oracle).2[j]? =
         some (match oracle (1 + j) with
               | Except.ok _ => DlEvent.done (res_pretty_name r) (res_url r)
               | Except.error e => DlEvent.failedDl (res_pretty_name r) (res_url r) e)) ∧
    ((action_list_group packages pkgShow rawFmt rawCsv).exit = 0 ∧
     (action_list_group packages pkgShow rawFmt rawCsv).rows =
       (List.enumFrom 1 packages).flatMap (fun p =>
         match pkgShow p.1 p.2 with
         | Except.error _ => []
         | Except.ok rs =>
           (rs.filter (groupKeep (asciiLower (pyStrip rawFmt)))).map (rowOf p.2))) := by
  have hevents : (action_download_dataset_xlsx resources oracle).2 =
      processResources oracle 1 (resources.filter is_xlsx_resource) := by
    unfold action_download_dataset_xlsx
    by_cases h : (resources.filter is_xlsx_resource).isEmpty
    · rw [if_pos h]
      rw [List.isEmpty_iff] at h
      rw [h]
      rfl
    · rw [if_neg h]
  refine ⟨?_, ?_, ?_, ?_, ?_, ?_⟩
  · unfold action_download_dataset_xlsx
    dsimp only
    split
    · rfl
    · rfl
  · rw [hevents, processResources_length]
  · intro j r hj hurl
    rw [hevents, processResources_getElem, hj]
    simp only [Option.map_some']
    rw [if_pos (by simp [hurl])]
  · intro j r hj hurl
    rw [hevents, processResources_getElem, hj]
    simp only [Option.map_some']
    rw [if_neg (by simp [hurl])]
    rw [pyOrS, if_pos (res_pretty_name_ne_empty r)]
  · exact action_list_group_exit packages pkgShow rawFmt rawCsv
  · rw [action_list_group_rows, listGroupRows_eq_flatMap]

/-- Witness for C8: one matched resource without a URL is skipped with a
notice, and one failing dataset fetch leaves the second dataset's rows in
place with exit 0. -/
theorem claim_C8_witness :
    (action_download_dataset_xlsx
        [⟨some "r1", none, none, some "xlsx", none, none⟩]
        (fun _ => (Except.ok () : Except Unit Unit))).2[0]? =
      some (DlEvent.skippedNoUrl (some "r1")) ∧
    (action_list_group
        [⟨some "d1", none, none⟩, ⟨some "d2", none, none⟩]
        (fun i _ => if i = 1 then (Except.error () : Except Unit (List Resource)) else
          Except.ok [⟨some "r2", none, none, some "xlsx", some "u.xlsx", none⟩])
        "" "").exit = 0 := by
  constructor
  · exact (claim_C8_orchestrator_loops
      [⟨some "r1", none, none, some "xlsx", none, none⟩]
      (fun _ => (Except.ok () : Except Unit Unit))
      [] (fun _ _ => (Except.ok [] : Except Unit (List Resource))) "" "").2.2.1 0
      ⟨some "r1", none, none, some "xlsx", none, none⟩ (by decide) (by decide)
  · exact (claim_C8_orchestrator_loops
      [] (fun _ => (Except.ok () : Except Unit Unit))
      [⟨some "d1", none, none⟩, ⟨some "d2", none, none⟩]
      (fun i _ => if i = 1 then (Except.error () : Except Unit (List Resource)) else
        Except.ok [⟨some "r2", none, none, some "xlsx", some "u.xlsx", none⟩])
      "" "").2.2.2.2.1

/-- Counterexample to claim C9 as stated: with a requested CSV destination
and an empty group there are zero matching rows, but the operation reports
"no datasets found" and returns before ever reaching the
"nothing was exported" report. -/
theorem claim_C9_counterexample :
    action_list_group [] (fun _ _ => (Except.ok [] : Except Unit (List Resource)))
      "xlsx" "out.csv" = ⟨0, [], none, some GroupMsg.noDatasets⟩ ∧
    GroupMsg.noDatasets ≠ GroupMsg.nothingToExport :=
  ⟨rfl, fun h => GroupMsg.noConfusion h⟩

/-- Claim C9, amended.  Every accumulated CSV row comes from a resource of a
successfully fetched dataset that passed the active format filter; the CSV
file (fixed header plus one row per matched resource) is written iff a
destination was requested and at least one row matched; with a requested
destination, zero matching rows and a nonempty group, no file is written
and the operation reports that nothing was exported — while for a group
with no datasets at all the operation reports that no datasets were found
and exits before the export step (still writing no file). -/
theorem claim_C9_group_csv {ε : Type} (packages : List Package)
    (pkgShow : Nat → Package → Except ε (List Resource)) (rawFmt rawCsv : String) :
    (∀ row ∈ (action_list_group packages pkgShow rawFmt rawCsv).rows,
       ∃ i pkg resources r, (i, pkg) ∈ List.enumFrom 1 packages ∧
         pkgShow i pkg = Except.ok resources ∧ r ∈ resources ∧
         groupKeep (asciiLower (pyStrip rawFmt)) r = true ∧ row = rowOf pkg r) ∧
    ((action_list_group packages pkgShow rawFmt rawCsv).csv =
       if rawCsv ≠ "" ∧ (action_list_group packages pkgShow rawFmt rawCsv).rows ≠ []
       then some (rawCsv, csvFieldnames, (action_list_group packages pkgShow rawFmt rawCsv).rows)
       else none) ∧
    (rawCsv ≠ "" → (action_list_group packages pkgShow rawFmt rawCsv).rows = [] →
       packages ≠ [] →
       (action_list_group packages pkgShow rawFmt rawCsv).msg =
           some GroupMsg.nothingToExport ∧
         (action_list_group packages pkgShow rawFmt rawCsv).csv = none) ∧
    (packages = [] →
       action_list_group packages pkgShow rawFmt rawCsv =
         ⟨0, [], none, some GroupMsg.noDatasets⟩) := by
  refine ⟨?_, ?_, ?_, ?_⟩
  · intro row hrow
    rw [action_list_group_rows, listGroupRows_eq_flatMap] at hrow
    rw [List.mem_flatMap] at hrow
    obtain ⟨p, hp, hrow⟩ := hrow
    match hshow : pkgShow p.1 p.2 with
    | Except.error e => rw [hshow] at hrow; exact absurd hrow (by simp)
    | Except.ok rs =>
      rw [hshow] at hrow
      rw [List.mem_map] at hrow
      obtain ⟨r, hr, hrq⟩ := hrow
      rw [List.mem_filter] at hr
      exact ⟨p.1, p.2, rs, r, by simpa using hp, hshow, hr.1, hr.2, hrq.symm⟩
  · exact action_list_group_csv packages pkgShow rawFmt rawCsv
  · intro hcsv hrows hpkg
    rw [action_list_group_rows] at hrows
    refine ⟨action_list_group_msg_empty_rows packages pkgShow rawFmt rawCsv hcsv hrows hpkg, ?_⟩
    rw [action_list_group_csv, if_neg (by rw [action_list_group_rows]; simp [hrows])]
  · intro hpkg
    subst hpkg
    rfl

/-- Witness for C9: requested CSV destination, one dataset, zero matching
rows — nothing is exported and no file is written. -/
theorem claim_C9_witness :
    (action_list_group [⟨some "d1", none, none⟩]
        (fun _ _ => (Except.ok [] : Except Unit (List Resource))) "xlsx" "out.csv").msg =
        some GroupMsg.nothingToExport ∧
      (action_list_group [⟨some "d1", none, none⟩]
        (fun _ _ => (Except.ok [] : Except Unit (List Resource))) "xlsx" "out.csv").csv =
        none :=
  (claim_C9_group_csv [⟨some "d1", none, none⟩]
      (fun _ _ => (Except.ok [] : Except Unit (List Resource))) "xlsx" "out.csv").2.2.1
    (by decide) (by decide) (by decide)

/-! ## Claim C7: the XLSX classifier and the group filter -/

/-- Counterexample to claim C7 as stated: the classifier strips surrounding
whitespace before comparing, so a resource whose `format` is `" xlsx "`
matches even though `" xlsx "` does not case-insensitively equal `"xlsx"`
and its URL does not end in `.xlsx`; moreover the group filter does not
strip the URL, so a URL with a trailing blank matches the classifier but is
skipped by the group filter for the same wanted format. -/
theorem claim_C7_counterexample :
    is_xlsx_resource ⟨none, none, none, some " xlsx ", some "http://e/f.bin", none⟩ = true ∧
    is_target_format_spec ⟨none, none, none, some " xlsx ", some "http://e/f.bin", none⟩
      "xlsx" = false ∧
    is_xlsx_resource ⟨none, none, none, none, some "a.xlsx ", none⟩ = true ∧
    groupKeep "xlsx" ⟨none, none, none, none, some "a.xlsx ", none⟩ = false := by
  refine ⟨?_, ?_, ?_, ?_⟩ <;> decide

/-- Claim C7, amended.  The XLSX classifier returns true iff the
whitespace-stripped `format` case-insensitively equals `"xlsx"` or the
whitespace-stripped effective URL (url, else download_url) case-insensitively
ends with `".xlsx"`; the group-listing filter applies the same rule for an
arbitrary non-empty wanted format except that it does not strip the URL
before the suffix test; and the empty wanted format matches everything. -/
theorem claim_C7_filters :
    (∀ r : Resource, is_xlsx_resource r =
       (asciiLower (pyStrip (pyOrStr r.format "")) == "xlsx" ||
        strEndsWith (asciiLower (pyStrip (res_url r))) ".xlsx")) ∧
    (∀ (r : Resource) (w : String), w ≠ "" →
       groupKeep w r =
         (asciiLower (pyStrip (pyOrStr r.format "")) == w ||
          strEndsWith (asciiLower (res_url r)) ("." ++ w))) ∧
    (∀ r : Resource, groupKeep "" r = true) := by
  refine ⟨?_, ?_, ?_⟩
  · intro r
    rfl
  · intro r w hw
    unfold groupKeep
    have hw' : (w != "") = true := by simpa using hw
    rw [hw']
    cases ha : (asciiLower (pyStrip (pyOrStr r.format "")) == w) <;>
      cases hb : strEndsWith (asciiLower (res_url r)) ("." ++ w) <;>
        simp_all
  · intro r
    unfold groupKeep
    simp

/-- Witness for C7: the amended group-filter characterisation at a concrete
resource and wanted format. -/
theorem claim_C7_witness :
    groupKeep "csv" ⟨none, none, none, some "CSV", some "http://h/data.bin", none⟩ =
      (asciiLower (pyStrip (pyOrStr (some "CSV") "")) == "csv" ||
       strEndsWith
         (asciiLower (res_url ⟨none, none, none, some "CSV", some "http://h/data.bin", none⟩))
         ("." ++ "csv")) :=
  claim_C7_filters.2.1 ⟨none, none, none, some "CSV", some "http://h/data.bin", none⟩
    "csv" (by decide)

/-! ## Claim C6: filename resolution precedence -/

theorem urlStep_some (urlPath : String → Option String) (chosen path : String)
    (hpath : urlPath chosen = some path) (hne : path ≠ "") (hfn : pathName path ≠ "") :
    urlStep urlPath chosen = some (sanitize_filename (pct_decode (pathName path))) := by
  simp [urlStep, hpath, hne, hfn]

/-- Claim C6.  Filename resolution follows a strict precedence: a
`filename`/`filename*` token parsed from the `Content-Disposition` header
(percent-decoded, then sanitized) wins over the URL- and hint-derived names
even when both are present; absent that, the last path segment of the final
URL (or of the fallback request URL when the response URL is falsy) is used,
percent-decoded and sanitized; absent that, the name hint is sanitized and
`.xlsx` appended unless already present (case-insensitively); absent all,
the fixed default `"arquivo.xlsx"`. -/
theorem claim_C6_guess_filename (urlPath : String → Option String) (cd : String)
    (respUrl : Option String) (fallbackUrl : String) (nameHint : Option String) :
    (∀ tok, cdSearch cd = some tok →
       guess_filename urlPath cd respUrl fallbackUrl nameHint =
         sanitize_filename (pct_decode tok)) ∧
    (cdSearch cd = none →
       ∀ path, urlPath (chosenUrl respUrl fallbackUrl) = some path → path ≠ "" →
       pathName path ≠ "" →
       guess_filename urlPath cd respUrl fallbackUrl nameHint =
         sanitize_filename (pct_decode (pathName path))) ∧
    (cdSearch cd = none → urlStep urlPath (chosenUrl respUrl fallbackUrl) = none →
       ∀ h, nameHint = some h → h ≠ "" →
       guess_filename urlPath cd respUrl fallbackUrl nameHint =
         (if strEndsWith (asciiLower (sanitize_filename h)) ".xlsx"
          then sanitize_filename h else sanitize_filename h ++ ".xlsx")) ∧
    (cdSearch cd = none → urlStep urlPath (chosenUrl respUrl fallbackUrl) = none →
       (nameHint = none ∨ nameHint = some "") →
       guess_filename urlPath cd respUrl fallbackUrl nameHint = "arquivo.xlsx") := by
  refine ⟨?_, ?_, ?_, ?_⟩
  · intro tok hcd
    unfold guess_filename
    have h1 : cdStep cd = some (sanitize_filename (pct_decode tok)) := by
      rw [cdStep, hcd]
      rfl
    rw [h1]
  · intro hcd path hpath hne hfn
    unfold guess_filename
    have h1 : cdStep cd = none := by rw [cdStep, hcd]; rfl
    rw [h1]
    dsimp only
    rw [urlStep_some urlPath (chosenUrl respUrl fallbackUrl) path hpath hne hfn]
  · intro hcd hurl h hhint hne
    unfold guess_filename
    have h1 : cdStep cd = none := by rw [cdStep, hcd]; rfl
    rw [h1]
    dsimp only
    rw [hurl]
    simp [hintStep, hhint, hne]
  · intro hcd hurl hhint
    unfold guess_filename
    have h1 : cdStep cd = none := by rw [cdStep, hcd]; rfl
    rw [h1]
    dsimp only
    rw [hurl]
    rcases hhint with hhint | hhint <;> simp [hintStep, hhint]

/-- Witness for C6: a `Content-Disposition` token beats a parseable URL path
and a hint that are both present. -/
theorem claim_C6_witness :
    guess_filename (fun _ => some "/p/q.bin") "attachment; filename=\"b%20c.xlsx\""
      (some "http://u/v") "http://x/a" (some "hint") = "b_c.xlsx" := by
  have h := (claim_C6_guess_filename (fun _ => some "/p/q.bin")
    "attachment; filename=\"b%20c.xlsx\"" (some "http://u/v") "http://x/a"
    (some "hint")).1 "b%20c.xlsx" (by decide)
  exact h.trans (by decide)

/-! ## Claim C2: the streaming download -/

theorem find?_filter_ne (fs : Fs) (a q : String) (h : q ≠ a) :
    List.find? (fun e => e.1 == q) (List.filter (fun e => e.1 != a) fs) =
      List.find? (fun e => e.1 == q) fs := by
  induction fs with
  | nil => rfl
  | cons e rest ih =>
    rw [List.filter_cons]
    by_cases he : e.1 = q
    · rw [if_pos (by simp [he, h])]
      rw [List.find?_cons_of_pos _ (by simp [he]), List.find?_cons_of_pos _ (by simp [he])]
    · by_cases hp : e.1 = a
      · rw [if_neg (by simp [hp])]
        rw [ih, List.find?_cons_of_neg _ (by simp [he])]
      · rw [if_pos (by simp [hp])]
        rw [List.find?_cons_of_neg _ (by simp [he]),
          List.find?_cons_of_neg _ (by simp [he]), ih]

theorem fsGet_fsSet_self (fs : Fs) (p : String) (v : List Nat) :
    fsGet (fsSet fs p v) p = some v := by
  unfold fsGet fsSet
  rw [List.find?_cons_of_pos _ (by simp)]
  rfl

theorem fsGet_fsSet_ne (fs : Fs) (p q : String) (v : List Nat) (h : q ≠ p) :
    fsGet (fsSet fs p v) q = fsGet fs q := by
  unfold fsGet fsSet
  rw [List.find?_cons_of_neg _ (by simp [Ne.symm h]), find?_filter_ne fs p q h]

theorem fsGet_fsErase_self (fs : Fs) (p : String) :
    fsGet (fsErase fs p) p = none := by
  unfold fsGet fsErase
  induction fs with
  | nil => rfl
  | cons e rest ih =>
    rw [List.filter_cons]
    by_cases hp : e.1 = p
    · rw [if_neg (by simp [hp])]
      exact ih
    · rw [if_pos (by simp [hp])]
      rw [List.find?_cons_of_neg _ (by simp [hp])]
      exact ih

theorem fsGet_fsErase_ne (fs : Fs) (p q : String) (h : q ≠ p) :
    fsGet (fsErase fs p) q = fsGet fs q := by
  unfold fsGet fsErase
  rw [find?_filter_ne fs p q h]

theorem dropWhile_head_false {p : Char → Bool} :
    ∀ (l : List Char) (c : Char) (cs : List Char),
      l.dropWhile p = c :: cs → p c = false := by
  intro l
  induction l with
  | nil => intro c cs h; exact absurd h (by simp)
  | cons a rest ih =>
    intro c cs h
    by_cases ha : p a
    · rw [List.dropWhile_cons_of_pos ha] at h
      exact ih c cs h
    · rw [List.dropWhile_cons_of_neg ha] at h
      cases h
      simpa using ha

/-- The suffix computed by `pySuffixL` really is a suffix of the name. -/
theorem pySuffixL_suffix (cs : List Char) : ∃ stem, cs = stem ++ pySuffixL cs := by
  unfold pySuffixL
  by_cases hc : ((cs.reverse.takeWhile (fun c => c != '.')).length < cs.reverse.length &&
      !(cs.reverse.takeWhile (fun c => c != '.')).isEmpty &&
      (cs.reverse.takeWhile (fun c => c != '.')).length + 1 < cs.length : Bool) = true
  · rw [if_pos hc]
    simp only [Bool.and_eq_true, decide_eq_true_eq] at hc
    obtain ⟨⟨h1, _⟩, _⟩ := hc
    have hsplit : cs.reverse.takeWhile (fun c => c != '.') ++
        cs.reverse.dropWhile (fun c => c != '.') = cs.reverse :=
      List.takeWhile_append_dropWhile (fun c => c != '.') cs.reverse
    obtain ⟨d, ds, hd⟩ : ∃ d ds, cs.reverse.dropWhile (fun c => c != '.') = d :: ds := by
      match hdd : cs.reverse.dropWhile (fun c => c != '.') with
      | [] =>
        rw [hdd, List.append_nil] at hsplit
        rw [hsplit] at h1
        exact absurd h1 (lt_irrefl _)
      | d :: ds => exact ⟨d, ds, rfl⟩
    have hdot : d = '.' := by
      have hfalse := dropWhile_head_false cs.reverse d ds hd
      simpa using hfalse
    subst hdot
    rw [hd] at hsplit
    refine ⟨ds.reverse, ?_⟩
    calc cs = cs.reverse.reverse := (List.reverse_reverse cs).symm
      _ = (cs.reverse.takeWhile (fun c => c != '.') ++ '.' :: ds).reverse := by
            rw [hsplit]
      _ = ('.' :: ds).reverse ++ (cs.reverse.takeWhile (fun c => c != '.')).reverse := by
            rw [List.reverse_append]
      _ = ds.reverse ++ '.' :: (cs.reverse.takeWhile (fun c => c != '.')).reverse := by
            simp
  · rw [if_neg hc]
    exact ⟨cs, by simp⟩

/-- The `.part` path arithmetic: `with_suffix(suffix + ".part")` always
yields the original name with `".part"` appended. -/
theorem pyWithSuffixL_part (cs : List Char) :
    pyWithSuffixL cs (pySuffixL cs ++ ".part".data) = cs ++ ".part".data := by
  obtain ⟨stem, hstem⟩ := pySuffixL_suffix cs
  unfold pyWithSuffixL
  generalize hg : pySuffixL cs = sfx at hstem ⊢
  subst hstem
  have hlen : (stem ++ sfx).length - sfx.length = stem.length := by simp
  rw [hlen, List.take_left, List.append_assoc]

theorem string_ne_append_part (s : String) : s ≠ s ++ ".part" := by
  intro h
  have h2 := congrArg String.length h
  rw [String.length_append] at h2
  have h5 : (".part" : String).length = 5 := rfl
  omega

/-- Claim C2.  A single download attempt fails on a non-2xx status with the
filesystem untouched (no bytes written); otherwise it streams the body to
the temporary path `{final_name}.part` inside the destination directory and
renames it over the final name in one step, overwriting any pre-existing
file: afterwards the final path holds exactly the streamed bytes, the
`.part` path does not exist, and no other path changed. -/
theorem claim_C2_download_stream (urlPath : String → Option String) (url : String)
    (destDir : String) (nameHint : Option String) (resp : HttpResp) (fs : Fs) :
    (¬(200 ≤ resp.status ∧ resp.status < 300) →
       download_stream urlPath url destDir nameHint resp fs =
         (DlResult.httpError resp.status, fs)) ∧
    ((200 ≤ resp.status ∧ resp.status < 300) →
       let filename := guess_filename urlPath resp.contentDisposition resp.finalUrl url nameHint
       let outPath := destDir ++ "/" ++ filename
       let tmpPath := outPath ++ ".part"
       (download_stream urlPath url destDir nameHint resp fs).1 = DlResult.ok outPath ∧
       fsGet (download_stream urlPath url destDir nameHint resp fs).2 outPath =
         some resp.chunks.flatten ∧
       fsGet (download_stream urlPath url destDir nameHint resp fs).2 tmpPath = none ∧
       (∀ q : String, q ≠ outPath → q ≠ tmpPath →
          fsGet (download_stream urlPath url destDir nameHint resp fs).2 q = fsGet fs q)) := by
  constructor
  · intro hbad
    unfold download_stream
    rw [if_neg hbad]
  · intro hok
    intro filename outPath tmpPath
    have htmp : destDir ++ "/" ++
        String.mk (pyWithSuffixL filename.data (pySuffixL filename.data ++ ".part".data)) =
        tmpPath := by
      rw [pyWithSuffixL_part]
      show destDir ++ "/" ++ (filename ++ ".part") = tmpPath
      simp only [tmpPath, outPath]
      simp [String.append_assoc]
    have hne : outPath ≠ tmpPath := string_ne_append_part outPath
    have hds : download_stream urlPath url destDir nameHint resp fs =
        (DlResult.ok outPath,
         fsRename (fsSet fs tmpPath resp.chunks.flatten) tmpPath outPath) := by
      unfold download_stream
      rw [if_pos hok]
      dsimp only
      rw [htmp]
    have hren : fsRename (fsSet fs tmpPath resp.chunks.flatten) tmpPath outPath =
        fsSet (fsErase (fsSet fs tmpPath resp.chunks.flatten) tmpPath) outPath
          resp.chunks.flatten := by
      unfold fsRename
      rw [fsGet_fsSet_self]
    refine ⟨?_, ?_, ?_, ?_⟩
    · rw [hds]
    · rw [hds]
      dsimp only
      rw [hren, fsGet_fsSet_self]
    · rw [hds]
      dsimp only
      rw [hren, fsGet_fsSet_ne _ _ _ _ (Ne.symm hne), fsGet_fsErase_self]
    · intro q hq1 hq2
      rw [hds]
      dsimp only
      rw [hren, fsGet_fsSet_ne _ _ _ _ hq1, fsGet_fsErase_ne _ _ _ hq2,
        fsGet_fsSet_ne _ _ _ _ hq2]

/-- Witness for C2: a 2xx response streams `[1,2] ++ [3]` into
`out/report.xlsx`, overwriting a stale copy and removing the `.part` file,
while a 404 leaves the filesystem unchanged. -/
theorem claim_C2_witness :
    fsGet (download_stream (fun _ => some "/d/report.xlsx") "http://x/a" "out" none
        ⟨200, "", none, [[1, 2], [3]]⟩
        [("out/report.xlsx.part", [9]), ("out/report.xlsx", [7])]).2
      "out/report.xlsx" = some [1, 2, 3] ∧
    fsGet (download_stream (fun _ => some "/d/report.xlsx") "http://x/a" "out" none
        ⟨200, "", none, [[1, 2], [3]]⟩
        [("out/report.xlsx.part", [9]), ("out/report.xlsx", [7])]).2
      "out/report.xlsx.part" = none ∧
    download_stream (fun _ => some "/d/report.xlsx") "http://x/a" "out" none
        ⟨404, "", none, []⟩ [] = (DlResult.httpError 404, []) := by
  have h := (claim_C2_download_stream (fun _ => some "/d/report.xlsx") "http://x/a" "out"
    none ⟨200, "", none, [[1, 2], [3]]⟩
    [("out/report.xlsx.part", [9]), ("out/report.xlsx", [7])]).2 (by decide)
  have hbad := (claim_C2_download_stream (fun _ => some "/d/report.xlsx") "http://x/a" "out"
    none ⟨404, "", none, []⟩ []).1 (by decide)
  have e1 : ("out" : String) ++ "/" ++ guess_filename (fun _ => some "/d/report.xlsx") ""
      none "http://x/a" none = "out/report.xlsx" := by decide
  refine ⟨?_, ?_, hbad⟩
  · have h2 := h.2.1
    rw [e1] at h2
    exact h2
  · have h3 := h.2.2.1
    rw [e1] at h3
    exact h3

/-! ## Claim C4: percent decoding -/

theorem hexVal_lt (c : Char) (v : Nat) (h : hexVal c = some v) : v < 16 := by
  unfold hexVal at h
  split at h
  · next hr => cases h; omega
  · split at h
    · next hr => cases h; omega
    · split at h
      · next hr => cases h; omega
      · cases h

theorem pyAsciiSpace_toNat (c : Char) (h : pyAsciiSpace c = true) :
    c.toNat = 0x09 ∨ c.toNat = 0x0A ∨ c.toNat = 0x0B ∨ c.toNat = 0x0C ∨
    c.toNat = 0x0D ∨ c.toNat = 0x20 := by
  simpa [pyAsciiSpace] using h

theorem hexVal_of_asciiSpace (c : Char) (h : pyAsciiSpace c = true) :
    hexVal c = none := by
  have hn := pyAsciiSpace_toNat c h
  unfold hexVal
  rw [if_neg (by omega), if_neg (by omega), if_neg (by omega)]

theorem asciiSpace_of_hexVal (c : Char) (v : Nat) (h : hexVal c = some v) :
    pyAsciiSpace c = false := by
  by_cases hs : pyAsciiSpace c
  · rw [hexVal_of_asciiSpace c hs] at h
    exact absurd h (by simp)
  · simpa using hs

theorem plus_ne_of_asciiSpace (c : Char) (h : pyAsciiSpace c = true) : c ≠ '+' := by
  intro he
  subst he
  simp [pyAsciiSpace] at h

theorem minus_ne_of_asciiSpace (c : Char) (h : pyAsciiSpace c = true) : c ≠ '-' := by
  intro he
  subst he
  simp [pyAsciiSpace] at h

theorem plus_ne_of_hexVal (c : Char) (v : Nat) (h : hexVal c = some v) : c ≠ '+' := by
  intro he
  subst he
  have hv : hexVal '+' = none := by decide
  rw [hv] at h
  exact absurd h (by simp)

theorem minus_ne_of_hexVal (c : Char) (v : Nat) (h : hexVal c = some v) : c ≠ '-' := by
  intro he
  subst he
  have hv : hexVal '-' = none := by decide
  rw [hv] at h
  exact absurd h (by simp)

theorem pyStripAsciiWs_pair_ff (c1 c2 : Char) (h1 : pyAsciiSpace c1 = false)
    (h2 : pyAsciiSpace c2 = false) : pyStripAsciiWs [c1, c2] = [c1, c2] := by
  simp [pyStripAsciiWs, List.dropWhile, h1, h2]

theorem pyStripAsciiWs_pair_tf (c1 c2 : Char) (h1 : pyAsciiSpace c1 = true)
    (h2 : pyAsciiSpace c2 = false) : pyStripAsciiWs [c1, c2] = [c2] := by
  simp [pyStripAsciiWs, List.dropWhile, h1, h2]

theorem pyStripAsciiWs_pair_ft (c1 c2 : Char) (h1 : pyAsciiSpace c1 = false)
    (h2 : pyAsciiSpace c2 = true) : pyStripAsciiWs [c1, c2] = [c1] := by
  simp [pyStripAsciiWs, List.dropWhile, h1, h2]

theorem pyStripAsciiWs_pair_tt (c1 c2 : Char) (h1 : pyAsciiSpace c1 = true)
    (h2 : pyAsciiSpace c2 = true) : pyStripAsciiWs [c1, c2] = [] := by
  simp [pyStripAsciiWs, List.dropWhile, h1, h2]

/-- The decode condition of the scan on transliterated characters,
characterised: the ASCII parse succeeds with a value `bytearray.append`
accepts exactly in the cases `decodeAsciiTriplet` enumerates. -/
theorem tripletAscii_eq (t1 t2 : Char) :
    (match pyIntHex2Ascii t1 t2 with
     | some v => if 0 ≤ v ∧ v < 256 then some v.toNat else none
     | none => none) = decodeAsciiTriplet t1 t2 := by
  have hplus : hexVal '+' = none := by decide
  have hminus : hexVal '-' = none := by decide
  by_cases h1 : pyAsciiSpace t1 <;> by_cases h2 : pyAsciiSpace t2
  · unfold pyIntHex2Ascii decodeAsciiTriplet
    rw [pyStripAsciiWs_pair_tt t1 t2 h1 h2, hexVal_of_asciiSpace t1 h1,
      hexVal_of_asciiSpace t2 h2]
    simp [plus_ne_of_asciiSpace t1 h1, minus_ne_of_asciiSpace t1 h1, h1]
  · unfold pyIntHex2Ascii decodeAsciiTriplet
    rw [pyStripAsciiWs_pair_tf t1 t2 h1 (by simpa using h2), hexVal_of_asciiSpace t1 h1]
    cases hh2 : hexVal t2 with
    | none => simp [plus_ne_of_asciiSpace t1 h1, minus_ne_of_asciiSpace t1 h1, h1, hh2]
    | some v =>
      have hlt := hexVal_lt t2 v hh2
      simp only [hh2, if_neg (plus_ne_of_asciiSpace t1 h1),
        if_neg (minus_ne_of_asciiSpace t1 h1), if_pos h1]
      split
      · simp
      · next hcond => exact absurd ⟨by omega, by omega⟩ hcond
  · unfold pyIntHex2Ascii decodeAsciiTriplet
    rw [pyStripAsciiWs_pair_ft t1 t2 (by simpa using h1) h2, hexVal_of_asciiSpace t2 h2]
    cases hh1 : hexVal t1 with
    | none =>
      by_cases hp : t1 = '+'
      · subst hp
        simp [hplus]
      · by_cases hm : t1 = '-'
        · subst hm
          simp [hminus]
        · simp [hp, hm, h1, h2, hh1]
    | some v =>
      have hlt := hexVal_lt t1 v hh1
      have h1f : pyAsciiSpace t1 = false := asciiSpace_of_hexVal t1 v hh1
      simp only [hh1, if_neg (plus_ne_of_hexVal t1 v hh1),
        if_neg (minus_ne_of_hexVal t1 v hh1), h1f, Bool.false_eq_true, if_false, if_pos h2]
      split
      · simp
      · next hcond => exact absurd ⟨by omega, by omega⟩ hcond
  · unfold pyIntHex2Ascii decodeAsciiTriplet
    rw [pyStripAsciiWs_pair_ff t1 t2 (by simpa using h1) (by simpa using h2)]
    by_cases hp : t1 = '+'
    · subst hp
      cases hh2 : hexVal t2 with
      | none => simp [hplus, hh2]
      | some v =>
        have hlt := hexVal_lt t2 v hh2
        simp only [hh2, hplus, eq_self_iff_true, if_true]
        split
        · simp
        · next hcond => exact absurd ⟨by omega, by omega⟩ hcond
    · by_cases hm : t1 = '-'
      · subst hm
        cases hh2 : hexVal t2 with
        | none => simp [hminus, hh2]
        | some v =>
          simp only [hh2, hminus, if_neg (show ¬('-' : Char) = '+' by decide),
            eq_self_iff_true, if_true]
          by_cases hv0 : v = 0
          · split
            · next hcond =>
              simp only [Option.some.injEq, if_pos hv0]
              omega
            · next hcond => exact absurd ⟨by omega, by omega⟩ hcond
          · split
            · next hcond => exact absurd hcond (by omega)
            · simp [hv0]
      · cases hh1 : hexVal t1 with
        | none =>
          cases hh2 : hexVal t2 with
          | none => simp [hh1, hh2, hp, hm, h1, h2]
          | some w => simp [hh1, hh2, hp, hm, h1, h2]
        | some v =>
          have hv := hexVal_lt t1 v hh1
          cases hh2 : hexVal t2 with
          | none => simp [hh1, hh2, hp, hm, h1, h2]
          | some w =>
            have hw := hexVal_lt t2 w hh2
            simp only [hh1, hh2, if_neg hp, if_neg hm]
            split
            · next hcond =>
              simp only [Option.some.injEq]
              omega
            · next hcond => exact absurd ⟨by omega, by omega⟩ hcond

/-- The raw-character decode condition: transliterate, then the ASCII
characterisation. -/
theorem tripletA_eq (c1 c2 : Char) :
    (match pyIntHex2 c1 c2 with
     | some v => if 0 ≤ v ∧ v < 256 then some v.toNat else none
     | none => none) = decodeTripletA c1 c2 := by
  unfold pyIntHex2 decodeTripletA
  exact tripletAscii_eq (pyTranslitChar c1) (pyTranslitChar c2)

theorem pctScan_pct_step (c1 c2 : Char) (rest : List Char) :
    pctScan ('%' :: c1 :: c2 :: rest) =
      (match pyIntHex2 c1 c2 with
       | some v =>
         if 0 ≤ v ∧ v < 256 then v.toNat :: pctScan rest
         else utf8EncodeChar '%' ++ pctScan (c1 :: c2 :: rest)
       | none => utf8EncodeChar '%' ++ pctScan (c1 :: c2 :: rest)) := rfl

theorem pctScanAmended_pct_step (c1 c2 : Char) (rest : List Char) :
    pctScanAmended ('%' :: c1 :: c2 :: rest) =
      (match decodeTripletA c1 c2 with
       | some v => v :: pctScanAmended rest
       | none => utf8EncodeChar '%' ++ pctScanAmended (c1 :: c2 :: rest)) := rfl

theorem pctScan_cons_default (c : Char) (rest : List Char)
    (hguard : ∀ c1 c2 r, ¬(c = '%' ∧ rest = c1 :: c2 :: r)) :
    pctScan (c :: rest) = utf8EncodeChar c ++ pctScan rest := by
  rw [pctScan.eq_def]
  split
  · next heq => exact absurd heq (by simp)
  · next c1 c2 r heq =>
    injection heq with h1 h2
    exact absurd ⟨h1, h2⟩ (hguard c1 c2 r)
  · next c' r _ heq =>
    injection heq with h1 h2
    rw [h1, h2]

theorem pctScanAmended_cons_default (c : Char) (rest : List Char)
    (hguard : ∀ c1 c2 r, ¬(c = '%' ∧ rest = c1 :: c2 :: r)) :
    pctScanAmended (c :: rest) = utf8EncodeChar c ++ pctScanAmended rest := by
  rw [pctScanAmended.eq_def]
  split
  · next heq => exact absurd heq (by simp)
  · next c1 c2 r heq =>
    injection heq with h1 h2
    exact absurd ⟨h1, h2⟩ (hguard c1 c2 r)
  · next c' r _ heq =>
    injection heq with h1 h2
    rw [h1, h2]

/-- The source scan and the amended-claim scan agree on every input. -/
theorem pctScan_eq_amended (cs : List Char) : pctScan cs = pctScanAmended cs := by
  induction cs using pctScan.induct with
  | case1 => rfl
  | case2 c1 c2 rest v hint hcond ih =>
    have ht := tripletA_eq c1 c2
    simp only [hint] at ht
    rw [if_pos hcond] at ht
    rw [pctScan_pct_step, pctScanAmended_pct_step]
    simp only [hint, ← ht, hcond.1, hcond.2, and_self, if_true, ih]
  | case3 c1 c2 rest v hint hcond ih =>
    have ht := tripletA_eq c1 c2
    simp only [hint] at ht
    rw [if_neg hcond] at ht
    rw [pctScan_pct_step, pctScanAmended_pct_step]
    simp only [hint, ← ht, hcond, if_false, ih]
  | case4 c1 c2 rest hint ih =>
    have ht := tripletA_eq c1 c2
    simp only [hint] at ht
    rw [pctScan_pct_step, pctScanAmended_pct_step]
    simp only [hint, ← ht, ih]
  | case5 c rest hshape ih =>
    have hguard : ∀ c1 c2 r, ¬(c = '%' ∧ rest = c1 :: c2 :: r) :=
      fun c1 c2 r hand => hshape c1 c2 r hand.1 hand.2
    rw [pctScan_cons_default c rest hguard, pctScanAmended_cons_default c rest hguard, ih]

/-- Counterexample to claim C4 as stated: `"+1"` is not two hex digits, so
the claim's decoder passes `"%+1"` through unchanged — but Python's
`int("+1", 16)` accepts the sign, so the code converts the triplet to byte
`0x01`. -/
theorem claim_C4_counterexample :
    pct_decode "%+1" = String.mk [Char.ofNat 1] ∧
    pctDecode_spec "%+1" = "%+1" ∧
    pct_decode "%+1" ≠ pctDecode_spec "%+1" := by
  refine ⟨by decide, by decide, by decide⟩

/-- Claim C4, amended.  `pct_decode` is the identity on every string without
`%` and never raises (it is a total function); it scans left to right
converting each `%HH` triplet accepted by Python's base-16 `int` parser with
a value in `0..255` to that byte value: after CPython's transliteration
(non-ASCII whitespace becomes a space, Unicode decimal digits of category
`Nd` become the corresponding ASCII digit, other non-ASCII characters
become `?`), the two characters must be two hex digits, `+` or ASCII
whitespace followed by a hex digit, a hex digit followed by ASCII
whitespace, or `-0`.  All other sequences pass through unchanged (the `%`
is emitted and the scan resumes at the next character), and the bytes are
decoded as UTF-8 with malformed sequences replaced by U+FFFD; in particular
`pct_decode "a%20b" = "a b"`, `pct_decode "100%" = "100%"`, and the
Arabic-Indic digit one makes `pct_decode "%١2"` yield byte `0x12`. -/
theorem claim_C4_pct_decode :
    (∀ s : String, s.data.contains '%' = false → pct_decode s = s) ∧
    pct_decode "a%20b" = "a b" ∧
    pct_decode "100%" = "100%" ∧
    pct_decode (String.mk ['%', Char.ofNat 0x661, '2']) = String.mk [Char.ofNat 0x12] ∧
    (∀ s : String, pct_decode s = pctDecode_amended s) := by
  refine ⟨?_, by decide, by decide, by decide, ?_⟩
  · intro s h
    unfold pct_decode
    rw [h]
    rfl
  · intro s
    unfold pct_decode pctDecode_amended
    by_cases h : s.data.contains '%' = false
    · rw [if_pos h, if_pos h]
    · rw [if_neg h, if_neg h, pctScan_eq_amended]

/-- Witness for C4: the identity conjunct applied at a concrete
percent-free string. -/
theorem claim_C4_witness : pct_decode "abc" = "abc" :=
  claim_C4_pct_decode.1 "abc" (by decide)

/-! ## Claim C5: filename sanitization -/

theorem mem_subRunsAux (p : Char → Bool) (r : Char) :
    ∀ (l : List Char) (b : Bool) (c : Char),
      c ∈ subRunsAux p r b l → c = r ∨ (p c = false ∧ c ∈ l) := by
  intro l
  induction l with
  | nil => intro b c h; exact absurd h (by simp [subRunsAux])
  | cons a rest ih =>
    intro b c h
    unfold subRunsAux at h
    by_cases ha : p a
    · rw [if_pos ha] at h
      by_cases hb : b
      · rw [if_pos hb] at h
        rcases ih true c h with h1 | ⟨h2, h3⟩
        · exact Or.inl h1
        · exact Or.inr ⟨h2, List.mem_cons_of_mem a h3⟩
      · rw [if_neg hb] at h
        rcases List.mem_cons.mp h with h1 | h1
        · exact Or.inl h1
        · rcases ih true c h1 with h2 | ⟨h3, h4⟩
          · exact Or.inl h2
          · exact Or.inr ⟨h3, List.mem_cons_of_mem a h4⟩
    · rw [if_neg ha] at h
      rcases List.mem_cons.mp h with h1 | h1
      · subst h1
        exact Or.inr ⟨by simpa using ha, List.mem_cons_self c rest⟩
      · rcases ih false c h1 with h2 | ⟨h3, h4⟩
        · exact Or.inl h2
        · exact Or.inr ⟨h3, List.mem_cons_of_mem a h4⟩

theorem mem_pyStripWs (l : List Char) (c : Char) (h : c ∈ pyStripWs l) : c ∈ l := by
  unfold pyStripWs at h
  rw [List.mem_reverse] at h
  have h2 := (List.dropWhile_sublist pyIsSpace).mem h
  rw [List.mem_reverse] at h2
  exact (List.dropWhile_sublist pyIsSpace).mem h2

/-- Counterexample to claim C5 as stated: the control character U+0001 is
neither in the replaced class nor whitespace, so sanitization passes it
through — the result does contain a control character. -/
theorem claim_C5_counterexample :
    sanitize_filename (String.mk ['a', Char.ofNat 1, 'b']) =
      String.mk ['a', Char.ofNat 1, 'b'] ∧
    Char.ofNat 1 ∈ (sanitize_filename (String.mk ['a', Char.ofNat 1, 'b'])).data ∧
    (Char.ofNat 1).toNat < 0x20 := by
  refine ⟨by decide, by decide, by decide⟩

/-- Claim C5, amended.  Sanitization replaces each maximal run of
`\\ / : * ? " < > |` CR LF TAB with one `_`, collapses whitespace runs,
trims, and replaces remaining spaces with `_`; the result never contains any
of those replaced characters nor any whitespace character (so no path
separator, and none of the replaced control characters TAB/CR/LF), and it is
never empty — an input sanitizing to nothing yields the fixed placeholder
`"arquivo"`.  Control characters outside the replaced class and the
whitespace class (e.g. U+0001) pass through unchanged.  In particular
`sanitize_filename "a/b:c" = "a_b_c"` and
`sanitize_filename "   " = "arquivo"`. -/
theorem claim_C5_sanitize :
    (∀ (s : String) (c : Char), c ∈ (sanitize_filename s).data →
       badFileChar c = false ∧ pyIsSpace c = false) ∧
    (∀ s : String, sanitize_filename s ≠ "") ∧
    sanitize_filename "a/b:c" = "a_b_c" ∧
    sanitize_filename "   " = "arquivo" := by
  have harq : ∀ c ∈ ("arquivo" : String).data,
      badFileChar c = false ∧ pyIsSpace c = false := by decide
  refine ⟨?_, ?_, by decide, by decide⟩
  · intro s c h
    unfold sanitize_filename at h
    dsimp only at h
    split at h
    · exact harq c h
    · rw [show (String.mk (((pyStripWs (subRuns pyIsSpace ' '
          (subRuns badFileChar '_' (pyStripWs s.data)))).map
          (fun c => if c = ' ' then '_' else c))) ).data =
          ((pyStripWs (subRuns pyIsSpace ' '
          (subRuns badFileChar '_' (pyStripWs s.data)))).map
          (fun c => if c = ' ' then '_' else c)) from rfl] at h
      rw [List.mem_map] at h
      obtain ⟨c', hc', hf⟩ := h
      by_cases hsp : c' = ' '
      · rw [if_pos hsp] at hf
        subst hf
        exact ⟨by decide, by decide⟩
      · rw [if_neg hsp] at hf
        subst hf
        have hc2 := mem_pyStripWs _ c' hc'
        rcases mem_subRunsAux pyIsSpace ' ' _ false c' hc2 with h1 | ⟨hws, hmem⟩
        · exact absurd h1 hsp
        · rcases mem_subRunsAux badFileChar '_' _ false c' hmem with h2 | ⟨hbad, _⟩
          · subst h2
            exact ⟨by decide, by decide⟩
          · exact ⟨hbad, hws⟩
  · intro s
    unfold sanitize_filename
    dsimp only
    split
    · decide
    · next h4 =>
      intro hcontra
      apply h4
      have hdata := congrArg String.data hcontra
      simp at hdata
      simp [hdata]

/-- Witness for C5: the no-bad-characters conjunct at a concrete input and
output character. -/
theorem claim_C5_witness :
    badFileChar '_' = false ∧ pyIsSpace '_' = false :=
  claim_C5_sanitize.1 "a b" '_' (by decide)
